import Mathlib

/-!
# Verification of the frontify-authenticator core against its specification

Shallow embedding of the repository's source (src/src/Utils.ts, src/src/Popup.ts,
src/src/index.ts, and the Oauth module) into Lean 4, together with theorems that
settle the frozen claims C1..C10.

Strings from the JavaScript source are modelled as Lean `String`s; where proofs
need list reasoning the functions are implemented on `List Char` and wrapped.
Asynchronous orchestration (popup events, timers, HTTP responses) is modelled as
a small-step state machine: every `window`/`timer`/network occurrence is an
explicit event, and each transition function is a direct transcription of the
corresponding handler body from the source.
-/

set_option maxHeartbeats 1000000

namespace Frontify

/-! ## Utils.ts -/

/-- `normalizeDomain`, scheme part (Utils.ts line 26):
`domain.replace(/^(http(s)?:\/\/)/, '')` removes a single leading
`https://` or `http://` occurrence (anchored at the start, applied once). -/
def stripScheme : List Char → List Char
  | 'h' :: 't' :: 't' :: 'p' :: 's' :: ':' :: '/' :: '/' :: rest => rest
  | 'h' :: 't' :: 't' :: 'p' :: ':' :: '/' :: '/' :: rest => rest
  | l => l

/-- `replace(/\/+$/, '')` (Utils.ts line 28): drop the maximal trailing run of slashes. -/
def dropTrailingSlashes (l : List Char) : List Char :=
  (l.reverse.dropWhile (fun c => c = '/')).reverse

/-- JavaScript `endsWith('/')` on a char list. -/
def endsWithSlash (l : List Char) : Bool :=
  match l.getLast? with
  | some c => c = '/'
  | none => false

/-- `normalizeDomain` body (Utils.ts lines 25-31) on char lists. -/
def normalizeDomainL (l : List Char) : List Char :=
  let normalizedDomain := stripScheme l
  if endsWithSlash normalizedDomain then dropTrailingSlashes normalizedDomain
  else normalizedDomain

/-- `normalizeDomain` (Utils.ts lines 25-31). -/
def normalizeDomain (domain : String) : String :=
  ⟨normalizeDomainL domain.data⟩

/-- Whether a char list starts with `http://` or `https://` (the pattern the
regex in `normalizeDomain` strips). -/
def startsWithScheme (l : List Char) : Bool :=
  ("https://".data.isPrefixOf l) || ("http://".data.isPrefixOf l)

/-! ### Facts about normalizeDomain -/

theorem dropWhile_head_false {p : Char → Bool} {m : List Char} {c : Char} {t : List Char}
    (h : m.dropWhile p = c :: t) : p c = false := by
  induction m with
  | nil => simp [List.dropWhile] at h
  | cons a as ih =>
    by_cases hp : p a
    · rw [List.dropWhile_cons_of_pos hp] at h
      exact ih h
    · rw [List.dropWhile_cons_of_neg hp] at h
      cases h
      exact Bool.of_not_eq_true hp

theorem endsWithSlash_dropTrailingSlashes (l : List Char) :
    endsWithSlash (dropTrailingSlashes l) = false := by
  unfold dropTrailingSlashes
  rcases h : l.reverse.dropWhile (fun c => c = '/') with _ | ⟨c, t⟩
  · simp [endsWithSlash]
  · have hc : (fun c => decide (c = '/')) c = false := dropWhile_head_false h
    simp only [decide_eq_false_iff_not] at hc
    simp [endsWithSlash, List.getLast?_reverse, List.head?_cons]
    · simpa using hc

theorem reverse_dropWhile_id {l : List Char} (h : endsWithSlash l = false) :
    l.reverse.dropWhile (fun c => c = '/') = l.reverse := by
  rcases l.eq_nil_or_concat with rfl | ⟨ys, c, rfl⟩
  · simp
  · simp only [List.concat_eq_append] at h ⊢
    have hc : (c = '/') = False := by
      unfold endsWithSlash at h
      rw [List.getLast?_concat] at h
      simpa using h
    rw [List.reverse_append, List.reverse_singleton, List.singleton_append]
    rw [List.dropWhile_cons_of_neg (by simp [hc])]

theorem endsWithSlash_false_eq {l : List Char} (h : endsWithSlash l = false) :
    dropTrailingSlashes l = l := by
  unfold dropTrailingSlashes
  rw [reverse_dropWhile_id h, List.reverse_reverse]

theorem normalizeDomainL_not_slash (l : List Char) :
    endsWithSlash (normalizeDomainL l) = false := by
  unfold normalizeDomainL
  by_cases h : endsWithSlash (stripScheme l) = true
  · simp only [h, if_true]
    exact endsWithSlash_dropTrailingSlashes _
  · simp only [Bool.not_eq_true] at h
    simp only [h, if_false]
    exact h

theorem stripScheme_of_no_scheme {l : List Char} (h : startsWithScheme l = false) :
    stripScheme l = l := by
  unfold startsWithScheme at h
  simp only [Bool.or_eq_false_iff] at h
  obtain ⟨h1, h2⟩ := h
  unfold stripScheme
  split
  · next rest => exfalso; revert h1; simp [List.isPrefixOf]
  · next rest => exfalso; revert h2; simp [List.isPrefixOf]
  · rfl

theorem normalizeDomainL_fixpoint {m : List Char}
    (h1 : stripScheme m = m) (h2 : endsWithSlash m = false) :
    normalizeDomainL m = m := by
  unfold normalizeDomainL
  simp only [h1, h2, Bool.false_eq_true, if_false]

/-- C5's idempotence, amended: it holds whenever the first normalization's result
does not itself begin with a scheme prefix (the regex is applied only once, so a
doubled scheme defeats idempotence — see the counterexample). -/
theorem normalizeDomainL_idem {l : List Char}
    (h : startsWithScheme (normalizeDomainL l) = false) :
    normalizeDomainL (normalizeDomainL l) = normalizeDomainL l :=
  normalizeDomainL_fixpoint (stripScheme_of_no_scheme h) (normalizeDomainL_not_slash l)

theorem dropWhile_replicate_append (k : Nat) (m : List Char) :
    (List.replicate k '/' ++ m).dropWhile (fun c => c = '/') =
      m.dropWhile (fun c => c = '/') := by
  induction k with
  | zero => simp
  | succ n ih =>
    rw [List.replicate_succ, List.cons_append, List.dropWhile_cons_of_pos (by simp)]
    exact ih

theorem dropTrailingSlashes_append_replicate (s : List Char) (k : Nat)
    (hs : endsWithSlash s = false) :
    dropTrailingSlashes (s ++ List.replicate k '/') = s := by
  unfold dropTrailingSlashes
  rw [List.reverse_append, List.reverse_replicate, dropWhile_replicate_append]
  rw [reverse_dropWhile_id hs, List.reverse_reverse]

theorem endsWithSlash_append_replicate_succ (s : List Char) (k : Nat) :
    endsWithSlash (s ++ List.replicate (k + 1) '/') = true := by
  unfold endsWithSlash
  rw [List.replicate_succ', ← List.append_assoc, List.getLast?_concat]
  rfl

theorem normalizeDomainL_strips (s : List Char) (hs : endsWithSlash s = false) (k : Nat) :
    normalizeDomainL ("http://".data ++ (s ++ List.replicate k '/')) = s
    ∧ normalizeDomainL ("https://".data ++ (s ++ List.replicate k '/')) = s := by
  have h1 : stripScheme ("http://".data ++ (s ++ List.replicate k '/'))
      = s ++ List.replicate k '/' := rfl
  have h2 : stripScheme ("https://".data ++ (s ++ List.replicate k '/'))
      = s ++ List.replicate k '/' := rfl
  have core : (if endsWithSlash (s ++ List.replicate k '/') = true then
      dropTrailingSlashes (s ++ List.replicate k '/') else s ++ List.replicate k '/') = s := by
    cases k with
    | zero => simp only [List.replicate_zero, List.append_nil, hs,
        Bool.false_eq_true, if_false]
    | succ n =>
      rw [endsWithSlash_append_replicate_succ s n, if_pos rfl]
      exact dropTrailingSlashes_append_replicate s _ hs
  constructor
  · show (if endsWithSlash (stripScheme _) = true then _ else _) = s
    rw [h1]; exact core
  · show (if endsWithSlash (stripScheme _) = true then _ else _) = s
    rw [h2]; exact core

/-- C5 — amended. `normalizeDomain` strips one leading `http://`/`https://` prefix
together with any number of trailing slashes, and normalizing twice is idempotent
whenever the normalized result does not itself still begin with a scheme prefix.
(Unrestricted idempotence is false: the regex strips only one scheme occurrence,
see `C5_counterexample`.) -/
theorem C5_normalizeDomain_strips_and_conditional_idem :
    (∀ s : String, endsWithSlash s.data = false → ∀ k : Nat,
        normalizeDomain ("http://" ++ s ++ String.mk (List.replicate k '/')) = s
      ∧ normalizeDomain ("https://" ++ s ++ String.mk (List.replicate k '/')) = s)
    ∧ ∀ d : String, startsWithScheme (normalizeDomain d).data = false →
        normalizeDomain (normalizeDomain d) = normalizeDomain d := by
  constructor
  · intro s hs k
    have hd1 : ("http://" ++ s ++ String.mk (List.replicate k '/')).data
        = "http://".data ++ (s.data ++ List.replicate k '/') := by
      simp [String.data_append, List.append_assoc]
    have hd2 : ("https://" ++ s ++ String.mk (List.replicate k '/')).data
        = "https://".data ++ (s.data ++ List.replicate k '/') := by
      simp [String.data_append, List.append_assoc]
    constructor
    · show String.mk (normalizeDomainL _) = s
      rw [hd1, (normalizeDomainL_strips s.data hs k).1]
    · show String.mk (normalizeDomainL _) = s
      rw [hd2, (normalizeDomainL_strips s.data hs k).2]
  · intro d hd
    show String.mk (normalizeDomainL (normalizeDomain d).data) = normalizeDomain d
    have hdata : (normalizeDomain d).data = normalizeDomainL d.data := rfl
    rw [hdata, normalizeDomainL_idem (by rw [← hdata]; exact hd)]
    rfl

/-- C5 — counterexample to the claim as stated: normalization is not idempotent
on a domain with a doubled scheme prefix, because the regex strips only the
first occurrence. -/
theorem C5_counterexample_not_idempotent :
    normalizeDomain (normalizeDomain "http://http://a") ≠ normalizeDomain "http://http://a" := by
  decide

/-- Witness for `C5_normalizeDomain_strips_and_conditional_idem` at concrete inputs. -/
theorem C5_witness :
    (endsWithSlash "example.com".data = false
      ∧ normalizeDomain "http://example.com///" = "example.com")
    ∧ (startsWithScheme (normalizeDomain "x/").data = false
      ∧ normalizeDomain (normalizeDomain "x/") = normalizeDomain "x/") := by
  refine ⟨⟨by decide, ?_⟩, ⟨by decide, ?_⟩⟩
  · have h := (C5_normalizeDomain_strips_and_conditional_idem.1 "example.com" (by decide) 3).1
    simpa using h
  · exact C5_normalizeDomain_strips_and_conditional_idem.2 "x/" (by decide)

/-! ## encodeUrlToBase64 / computeChallengeCode (Utils.ts 9-14, Oauth 37-42) -/

/-- The code-verifier alphabet of `getRandomString` (Utils.ts line 2). -/
def validChars : String := "ABCDEFGHIJKLMNOPQRSTUVWXYZabcdefghijklmnopqrstuvwxyz0123456789"

/-- The base64 alphabet used by the browser's `btoa`. -/
def base64Chars : List Char :=
  "ABCDEFGHIJKLMNOPQRSTUVWXYZabcdefghijklmnopqrstuvwxyz0123456789+/".data

/-- The base64url alphabet (RFC 7636 / RFC 4648 section 5). -/
def base64UrlChars : List Char :=
  "ABCDEFGHIJKLMNOPQRSTUVWXYZabcdefghijklmnopqrstuvwxyz0123456789-_".data

def b64char (n : Nat) : Char := base64Chars.getD n 'A'

/-- Browser `btoa` on a binary string, given as the list of its char codes
(each < 256): standard base64, '=' padded. -/
def btoaL : List Nat → List Char
  | [] => []
  | [b1] => [b64char (b1 / 4), b64char (b1 % 4 * 16), '=', '=']
  | [b1, b2] => [b64char (b1 / 4), b64char (b1 % 4 * 16 + b2 / 16), b64char (b2 % 16 * 4), '=']
  | b1 :: b2 :: b3 :: rest =>
      b64char (b1 / 4) :: b64char (b1 % 4 * 16 + b2 / 16) ::
        b64char (b2 % 16 * 4 + b3 / 64) :: b64char (b3 % 64) :: btoaL rest

/-- `.replace(/\+/g, '-')` (Utils.ts line 11). -/
def replacePlus (l : List Char) : List Char := l.map (fun c => if c = '+' then '-' else c)

/-- `.replace(/\//g, '_')` (Utils.ts line 12). -/
def replaceSlash (l : List Char) : List Char := l.map (fun c => if c = '/' then '_' else c)

/-- `.replace(/=+$/, '')` (Utils.ts line 13): drop the maximal trailing run of '='. -/
def dropTrailingEq (l : List Char) : List Char :=
  (l.reverse.dropWhile (fun c => c = '=')).reverse

/-- `encodeUrlToBase64` (Utils.ts lines 9-14) on the char codes of its binary-string
argument. -/
def encodeUrlToBase64 (url : List Nat) : String :=
  ⟨dropTrailingEq (replaceSlash (replacePlus (btoaL url)))⟩

/-- `computeChallengeCode` (Oauth module lines 37-42): base64url of the SHA-256
digest of the UTF-8 bytes of the verifier. `window.crypto.subtle.digest` together
with `TextEncoder` is an external browser call, passed in as the `digest` oracle
producing the digest's bytes. -/
def computeChallengeCode (digest : String → List Nat) (codeVerifier : String) : String :=
  encodeUrlToBase64 (digest codeVerifier)

theorem b64char_mem (n : Nat) : b64char n ∈ base64Chars := by
  unfold b64char
  rcases h : base64Chars.get? n with _ | c
  · rw [List.getD_eq_getElem?_getD, ← List.get?_eq_getElem?, h]
    decide
  · rw [List.getD_eq_getElem?_getD, ← List.get?_eq_getElem?, h]
    exact List.get?_mem h

theorem btoa_decomp : (bs : List Nat) →
    ∃ A E, btoaL bs = A ++ E ∧ (∀ c ∈ A, c ∈ base64Chars) ∧ (∀ c ∈ E, c = '=')
  | [] => ⟨[], [], rfl, by simp, by simp⟩
  | [b1] => by
      refine ⟨[b64char (b1 / 4), b64char (b1 % 4 * 16)], ['=', '='], rfl, ?_, ?_⟩
      · intro c hc
        simp only [List.mem_cons, List.not_mem_nil, or_false] at hc
        rcases hc with rfl | rfl
        · exact b64char_mem _
        · exact b64char_mem _
      · intro c hc
        simp only [List.mem_cons, List.not_mem_nil, or_false] at hc
        rcases hc with rfl | rfl <;> rfl
  | [b1, b2] => by
      refine ⟨[b64char (b1 / 4), b64char (b1 % 4 * 16 + b2 / 16), b64char (b2 % 16 * 4)],
        ['='], rfl, ?_, ?_⟩
      · intro c hc
        simp only [List.mem_cons, List.not_mem_nil, or_false] at hc
        rcases hc with rfl | rfl | rfl
        · exact b64char_mem _
        · exact b64char_mem _
        · exact b64char_mem _
      · intro c hc
        simp only [List.mem_cons, List.not_mem_nil, or_false] at hc
        rcases hc with rfl
        rfl
  | b1 :: b2 :: b3 :: rest => by
      obtain ⟨A, E, h1, h2, h3⟩ := btoa_decomp rest
      refine ⟨b64char (b1 / 4) :: b64char (b1 % 4 * 16 + b2 / 16) ::
        b64char (b2 % 16 * 4 + b3 / 64) :: b64char (b3 % 64) :: A, E, ?_, ?_, h3⟩
      · show b64char (b1 / 4) :: b64char (b1 % 4 * 16 + b2 / 16) ::
          b64char (b2 % 16 * 4 + b3 / 64) :: b64char (b3 % 64) :: btoaL rest = _
        rw [h1]; rfl
      · intro c hc
        simp only [List.mem_cons] at hc
        rcases hc with rfl | rfl | rfl | rfl | h
        · exact b64char_mem _
        · exact b64char_mem _
        · exact b64char_mem _
        · exact b64char_mem _
        · exact h2 c h

theorem dropWhile_append_of_all {p : Char → Bool} :
    ∀ (xs m : List Char), (∀ c ∈ xs, p c = true) → (xs ++ m).dropWhile p = m.dropWhile p := by
  intro xs
  induction xs with
  | nil => intro m _; rfl
  | cons a t ih =>
    intro m h
    rw [List.cons_append, List.dropWhile_cons_of_pos (h a (by simp))]
    exact ih m (fun c hc => h c (by simp [hc]))

theorem dropTrailingEq_append {A E : List Char}
    (hA : ∀ c ∈ A, c ≠ '=') (hE : ∀ c ∈ E, c = '=') :
    dropTrailingEq (A ++ E) = A := by
  unfold dropTrailingEq
  rw [List.reverse_append]
  rw [dropWhile_append_of_all E.reverse A.reverse
    (fun c hc => by simpa using hE c (List.mem_reverse.mp hc))]
  have : A.reverse.dropWhile (fun c => c = '=') = A.reverse := by
    rcases h : A.reverse with _ | ⟨c, t⟩
    · rfl
    · have hc : c ∈ A := by
        rw [← List.mem_reverse, h]; simp
      rw [List.dropWhile_cons_of_neg (by simpa using hA c hc)]
  rw [this, List.reverse_reverse]

theorem base64_maps_to_url (a : Char) (ha : a ∈ base64Chars) :
    (if (if a = '+' then '-' else a) = '/' then '_' else if a = '+' then '-' else a)
      ∈ base64UrlChars := by
  revert ha
  have : ∀ a ∈ base64Chars,
      ((if (if a = '+' then '-' else a) = '/' then '_'
        else if a = '+' then '-' else a) ∈ base64UrlChars) := by decide
  exact this a

theorem encodeUrlToBase64_mem (bytes : List Nat) :
    ∀ c ∈ (encodeUrlToBase64 bytes).data, c ∈ base64UrlChars := by
  obtain ⟨A, E, h1, h2, h3⟩ := btoa_decomp bytes
  intro c hc
  have hdata : (encodeUrlToBase64 bytes).data
      = dropTrailingEq (replaceSlash (replacePlus (btoaL bytes))) := rfl
  rw [hdata, h1] at hc
  unfold replacePlus replaceSlash at hc
  rw [List.map_append, List.map_append] at hc
  set A2 := (A.map (fun c => if c = '+' then '-' else c)).map
    (fun c => if c = '/' then '_' else c) with hA2
  set E2 := (E.map (fun c => if c = '+' then '-' else c)).map
    (fun c => if c = '/' then '_' else c) with hE2
  have hA2mem : ∀ x ∈ A2, x ∈ base64UrlChars := by
    intro x hx
    rw [hA2] at hx
    simp only [List.mem_map] at hx
    obtain ⟨y, ⟨a, ha, rfl⟩, rfl⟩ := hx
    exact base64_maps_to_url a (h2 a ha)
  have hA2ne : ∀ x ∈ A2, x ≠ '=' := by
    intro x hx
    have := hA2mem x hx
    revert this
    have : ∀ x ∈ base64UrlChars, x ≠ '=' := by decide
    exact this x
  have hE2eq : ∀ x ∈ E2, x = '=' := by
    intro x hx
    rw [hE2] at hx
    simp only [List.mem_map] at hx
    obtain ⟨y, ⟨a, ha, rfl⟩, rfl⟩ := hx
    have := h3 a ha
    subst this
    rfl
  rw [dropTrailingEq_append hA2ne hE2eq] at hc
  exact hA2mem c hc

/-- C6 — confirmed. For every length-64 alphanumeric code verifier (and any digest
byte string the SHA-256 call produces), the computed PKCE challenge is a valid
base64url string: every character lies in the base64url alphabet, so none of
'+', '/', '=' occurs. -/
theorem C6_challenge_is_base64url (digest : String → List Nat) (codeVerifier : String)
    (_hlen : codeVerifier.length = 64)
    (_halpha : ∀ c ∈ codeVerifier.data, c ∈ validChars.data)
    (_hbytes : ∀ b ∈ digest codeVerifier, b < 256) :
    ∀ c ∈ (computeChallengeCode digest codeVerifier).data,
      c ∈ base64UrlChars ∧ c ≠ '+' ∧ c ≠ '/' ∧ c ≠ '=' := by
  intro c hc
  have hmem : c ∈ base64UrlChars := encodeUrlToBase64_mem (digest codeVerifier) c hc
  refine ⟨hmem, ?_, ?_, ?_⟩
  · revert hmem; have : ∀ x ∈ base64UrlChars, x ≠ '+' := by decide
    exact this c
  · revert hmem; have : ∀ x ∈ base64UrlChars, x ≠ '/' := by decide
    exact this c
  · revert hmem; have : ∀ x ∈ base64UrlChars, x ≠ '=' := by decide
    exact this c

/-- Witness for `C6_challenge_is_base64url`: a concrete 64-char verifier and a
32-byte digest oracle. -/
theorem C6_witness :
    (String.mk (List.replicate 64 'a')).length = 64
    ∧ (∀ c ∈ (String.mk (List.replicate 64 'a')).data, c ∈ validChars.data)
    ∧ (∀ b ∈ (fun (_ : String) => List.replicate 32 7) (String.mk (List.replicate 64 'a')),
        b < 256)
    ∧ ∀ c ∈ (computeChallengeCode (fun _ => List.replicate 32 7)
        (String.mk (List.replicate 64 'a'))).data,
      c ∈ base64UrlChars ∧ c ≠ '+' ∧ c ≠ '/' ∧ c ≠ '=' :=
  ⟨by decide, by decide, by decide,
    C6_challenge_is_base64url (fun _ => List.replicate 32 7)
      (String.mk (List.replicate 64 'a')) (by decide) (by decide) (by decide)⟩

/-! ## toUrlParameter and the authorization URL (Utils.ts 16-23, Oauth module 44-66) -/

/-- Characters `encodeURIComponent` leaves unescaped. -/
def isUriUnreserved (c : Char) : Bool :=
  c.isAlphanum || c = '-' || c = '_' || c = '.' || c = '!' || c = '~' || c = '*'
    || c = Char.ofNat 39 || c = '(' || c = ')'

/-- UTF-8 bytes of a code point. -/
def utf8Bytes (n : Nat) : List Nat :=
  if n < 128 then [n]
  else if n < 2048 then [192 + n / 64, 128 + n % 64]
  else if n < 65536 then [224 + n / 4096, 128 + n / 64 % 64, 128 + n % 64]
  else [240 + n / 262144, 128 + n / 4096 % 64, 128 + n / 64 % 64, 128 + n % 64]

def hexDigit (n : Nat) : Char := "0123456789ABCDEF".data.getD n '0'

/-- A percent-escaped byte, `%XX`. -/
def pctByte (b : Nat) : List Char := ['%', hexDigit (b / 16), hexDigit (b % 16)]

/-- One character's contribution to `encodeURIComponent`. -/
def encodeChar (c : Char) : List Char :=
  if isUriUnreserved c then [c] else (utf8Bytes c.toNat).flatMap pctByte

/-- JavaScript `encodeURIComponent`. -/
def encodeURIComponent (s : String) : String :=
  ⟨s.data.flatMap encodeChar⟩

/-- The `uriEncodedParts` list of `toUrlParameter` (Utils.ts lines 18-21):
keys in insertion order, keys with falsy (empty-string) values filtered out,
each remaining entry rendered as `key=encodeURIComponent(value)`. -/
def toUrlParts (dict : List (String × String)) : List String :=
  (dict.filter (fun kv => !(kv.2 == ""))).map
    (fun kv => kv.1 ++ "=" ++ encodeURIComponent kv.2)

/-- `toUrlParameter` (Utils.ts lines 16-23). -/
def toUrlParameter (dict : List (String × String)) : String :=
  String.intercalate "&" (toUrlParts dict)

/-- The authorization URL assembled by `computeAuthorizationUrl`
(Oauth module lines 51-59), given the already-computed code challenge and
session id. -/
def computeAuthorizationUrlStr (domain clientId : String) (scopes : List String)
    (codeChallenge sessionId : String) : String :=
  "https://" ++ normalizeDomain domain ++ "/api/oauth/authorize?" ++
    toUrlParameter [("response_type", "code"), ("client_id", clientId),
      ("scope", String.intercalate "+" scopes), ("code_challenge", codeChallenge),
      ("code_challenge_method", "S256"), ("redirect_uri", "/connection/authenticator"),
      ("session_id", sessionId)]

/-- Substring test on strings (for checking which parameters appear in a URL). -/
def strContainsSub (hay pat : String) : Bool :=
  hay.data.tails.any (fun t => pat.data.isPrefixOf t)

theorem utf8Bytes_ne_nil (n : Nat) : utf8Bytes n ≠ [] := by
  unfold utf8Bytes
  split
  · simp
  · split
    · simp
    · split <;> simp

theorem encodeChar_ne_nil (c : Char) : encodeChar c ≠ [] := by
  unfold encodeChar
  split
  · simp
  · rcases h : utf8Bytes c.toNat with _ | ⟨b, t⟩
    · exact absurd h (utf8Bytes_ne_nil _)
    · simp [List.flatMap_cons, pctByte]

theorem encodeURIComponent_ne_empty {v : String} (h : v ≠ "") :
    encodeURIComponent v ≠ "" := by
  intro hcontra
  have hdata : v.data.flatMap encodeChar = [] := congrArg String.data hcontra
  cases hv : v.data with
  | nil => exact h (String.ext (by rw [hv]))
  | cons c t =>
    rw [hv, List.flatMap_cons] at hdata
    rcases he : encodeChar c with _ | ⟨x, xs⟩
    · exact absurd he (encodeChar_ne_nil c)
    · rw [he] at hdata
      simp at hdata

/-- C9 — confirmed. `toUrlParameter` omits every entry whose value is falsy
(the empty string): inserting an empty-valued entry anywhere leaves the query
string unchanged; every emitted component stems from a non-empty value and
carries a non-empty encoded value; and concretely the assembled authorization
URL with an empty session id contains no `session_id` parameter at all, while
a non-empty session id does appear. -/
theorem C9_toUrlParameter_omits_falsy :
    (∀ (d1 d2 : List (String × String)) (k : String),
      toUrlParameter (d1 ++ (k, "") :: d2) = toUrlParameter (d1 ++ d2))
    ∧ (∀ (dict : List (String × String)) (p : String), p ∈ toUrlParts dict →
      ∃ kv, kv ∈ dict ∧ kv.2 ≠ ""
        ∧ p = kv.1 ++ "=" ++ encodeURIComponent kv.2 ∧ encodeURIComponent kv.2 ≠ "")
    ∧ strContainsSub
        (computeAuthorizationUrlStr "example.frontify.test" "abc" ["basic"] "cc123" "")
        "session_id" = false
    ∧ strContainsSub
        (computeAuthorizationUrlStr "example.frontify.test" "abc" ["basic"] "cc123" "s1")
        "session_id=s1" = true := by
  refine ⟨?_, ?_, by decide, by decide⟩
  · intro d1 d2 k
    unfold toUrlParameter toUrlParts
    rw [List.filter_append, List.filter_cons, List.filter_append]
    simp
  · intro dict p hp
    unfold toUrlParts at hp
    rw [List.mem_map] at hp
    obtain ⟨kv, hkv, rfl⟩ := hp
    rw [List.mem_filter] at hkv
    obtain ⟨hmem, htruthy⟩ := hkv
    have hne : kv.2 ≠ "" := by
      simpa using htruthy
    exact ⟨kv, hmem, hne, rfl, encodeURIComponent_ne_empty hne⟩

/-- Witness for `C9_toUrlParameter_omits_falsy` at concrete inputs. -/
theorem C9_witness :
    toUrlParameter [("a", "1"), ("session_id", ""), ("b", "2")]
      = toUrlParameter [("a", "1"), ("b", "2")]
    ∧ ("b=2" ∈ toUrlParts [("a", "1"), ("b", "2")]
      ∧ ∃ kv, kv ∈ [("a", "1"), ("b", "2")] ∧ kv.2 ≠ ""
        ∧ "b=2" = kv.1 ++ "=" ++ encodeURIComponent kv.2 ∧ encodeURIComponent kv.2 ≠ "") :=
  ⟨C9_toUrlParameter_omits_falsy.1 [("a", "1")] [("b", "2")] "session_id",
    by decide,
    C9_toUrlParameter_omits_falsy.2.1 [("a", "1"), ("b", "2")] "b=2" (by decide)⟩

/-! ## Token, revokeToken and revoke (Oauth module 25-35, 180-192; index.ts 84-87) -/

/-- The `bearerToken` part of `Token` (Oauth module lines 25-35). -/
structure BearerTokenSt where
  tokenType : String
  expiresIn : Nat
  accessToken : String
  refreshToken : String
  domain : String
deriving DecidableEq, Repr

/-- `Token` (Oauth module lines 25-35). -/
structure TokenSt where
  bearerToken : BearerTokenSt
  clientId : String
  scopes : List String
deriving DecidableEq, Repr

/-- `revokeToken` (Oauth module lines 180-192): one POST to `/api/oauth/revoke`;
the HTTP outcome is the oracle argument; a failure is wrapped as
ERR_AUTH_TOKEN_REVOKE. Returns the request that was issued so callers can
observe the call's target. -/
def revokeToken (httpOk : Bool) (domain accessToken : String) :
    Except String (String × String) :=
  if httpOk then .ok ("https://" ++ normalizeDomain domain ++ "/api/oauth/revoke", accessToken)
  else .error "ERR_AUTH_TOKEN_REVOKE"

/-- `revoke` (src/src/index.ts lines 84-87): awaits `revokeToken` on the token's
domain and access token, then returns the input token itself. -/
def revoke (httpOk : Bool) (tokenInput : TokenSt) : Except String TokenSt :=
  match revokeToken httpOk tokenInput.bearerToken.domain tokenInput.bearerToken.accessToken with
  | .ok _ => .ok tokenInput
  | .error e => .error e

/-- C10 — confirmed. When the revoke HTTP call succeeds, `revoke` resolves with
exactly the token it was given, unchanged in every field. -/
theorem C10_revoke_returns_input (httpOk : Bool) (t : TokenSt) (h : httpOk = true) :
    revoke httpOk t = .ok t := by
  subst h
  rfl

/-- Witness for `C10_revoke_returns_input` at a concrete token. -/
theorem C10_witness :
    revoke true ⟨⟨"Bearer", 3600, "at1", "rt1", "example.frontify.test"⟩, "abc", ["basic"]⟩
      = .ok ⟨⟨"Bearer", 3600, "at1", "rt1", "example.frontify.test"⟩, "abc", ["basic"]⟩ :=
  C10_revoke_returns_input true
    ⟨⟨"Bearer", 3600, "at1", "rt1", "example.frontify.test"⟩, "abc", ["basic"]⟩ rfl

/-! ## The orchestration state machine (src/src/index.ts + src/src/Popup.ts)

The authorize() flow is event-driven: popup `message` events, the 100ms
closed-window interval, the two 5-minute `setTimeout`s and the HTTP responses
all run on the single browser thread, interleaved with the orchestrator's
awaits. We model every such occurrence as an explicit event acting on a global
state; each transition function below transcribes the corresponding handler
body from the source. `window.open` is assumed to succeed (a blocked popup
throws before any of the flows modelled here start). One `authenticate` run per
attempt is tracked (re-entrant duplicate domain messages inside a single
attempt re-issue calls but their duplicate continuations are not tracked). -/

/-- Which source closure a registered listener entry refers to. -/
inductive HKind
  | domDomain | domAborted | authAborted | authSuccess | authCancelled
deriving DecidableEq, Repr

/-- A registered callback: the closure kind and the authorize() attempt that
created it. -/
structure HTag where
  kind : HKind
  attempt : Nat
deriving DecidableEq, Repr

/-- One `Popup` instance (Popup.ts): its window handle's open state, the 100ms
interval, the registered `window` message listener, the `listeners` name→callback
map, and the `domain` field. The two counters record how often the interval was
effectively cleared and the message listener effectively unregistered. -/
structure PopupSt where
  windowOpen : Bool
  intervalActive : Bool
  listenerRegistered : Bool
  listeners : List (String × HTag)
  domain : String
  intervalClears : Nat
  listenerRemovals : Nat
deriving DecidableEq, Repr

/-- A freshly constructed Popup (Popup.ts constructor, lines 43-54). -/
def PopupSt.fresh : PopupSt := ⟨true, true, true, [], "", 0, 0⟩

/-- The default used for out-of-range popup access (never hit in real runs). -/
def PopupSt.phantom : PopupSt := ⟨false, false, false, [], "", 0, 0⟩

/-- `this.listeners[name] = callback`: insertion-ordered map update, registration
replaces any prior callback for the same name. -/
def setListener (name : String) (tag : HTag) :
    List (String × HTag) → List (String × HTag)
  | [] => [(name, tag)]
  | (k, t) :: rest =>
      if k = name then (k, tag) :: rest else (k, t) :: setListener name tag rest

/-- `this.listeners[name]` lookup. -/
def getListener (name : String) : List (String × HTag) → Option HTag
  | [] => none
  | (k, t) :: rest => if k = name then some t else getListener name rest

/-- `Popup.close()` (Popup.ts lines 126-133): clear the callback map, clear the
interval, unregister the message listener, close the window if still open.
`clearInterval`/`removeEventListener` on an already-torn-down resource is a
no-op, so the effect counters advance only on an actual teardown. -/
def PopupSt.close (p : PopupSt) : PopupSt :=
  { p with
    listeners := [],
    intervalActive := false,
    intervalClears := p.intervalClears + (if p.intervalActive then 1 else 0),
    listenerRegistered := false,
    listenerRemovals := p.listenerRemovals + (if p.listenerRegistered then 1 else 0),
    windowOpen := false }

/-- `AuthConfigurationInput` / `AuthConfiguration` (index.ts 17-21): `domain = ""`
models an absent or deleted domain field (the only falsy string). -/
structure ConfigSt where
  domain : String
  clientId : String
  scopes : List String
deriving DecidableEq, Repr

/-- Where an attempt's control flow currently stands. -/
inductive Phase
  | domainWait | computingUrl | authWait | polling | exchanging | doneOk | doneErr
deriving DecidableEq, Repr

/-- The state of the promise `authorize()` returned for one attempt.
`rejected ""` models a bare `reject()` with no argument. -/
inductive PromiseSt
  | pending
  | resolvedTok (t : TokenSt)
  | rejected (code : String)
deriving DecidableEq, Repr

/-- One `authorize()` attempt: its configuration object, the popup created at its
entry, the popup its `authenticate` run uses (the module-level `popup` variable at
call time), which flow it entered, its phase, whether its two 5-minute timers are
scheduled, the session id `computeAuthorizationUrl` obtained, and its promise. -/
structure AttemptSt where
  cfg : ConfigSt
  popupIdx : Nat
  curPopupIdx : Nat
  viaDomain : Bool
  phase : Phase
  domainTimerArmed : Bool
  authTimerArmed : Bool
  sessionId : String
  result : PromiseSt
deriving DecidableEq, Repr

def AttemptSt.phantom : AttemptSt :=
  ⟨⟨"", "", []⟩, 0, 0, false, .doneErr, false, false, "", .pending⟩

/-- The HTTP requests the Oauth module issues (positional fields are the
request-relevant values). -/
inductive HttpReq
  | createSession (domain : String)
  | poll (domain sessionId : String)
  | accessToken (domain clientId code : String)
deriving DecidableEq, Repr

/-- The module-level state of index.ts plus all live Popup instances and
attempts, and the log of HTTP requests issued. `domainTimerVar`/`authTimerVar`
model the module-level `domainPopUpTimeout`/`authTimeout` variables: the attempt
index whose timer handle they currently hold. -/
structure GlobalSt where
  popupStateOpen : Bool
  popups : List PopupSt
  attempts : List AttemptSt
  calls : List HttpReq
  moduleToken : Option TokenSt
  domainTimerVar : Nat
  authTimerVar : Nat
deriving DecidableEq, Repr

def GlobalSt.init : GlobalSt := ⟨false, [], [], [], none, 0, 0⟩

def getPopup (g : GlobalSt) (i : Nat) : PopupSt := g.popups.getD i PopupSt.phantom

def getAttempt (g : GlobalSt) (j : Nat) : AttemptSt := g.attempts.getD j AttemptSt.phantom

def modifyPopup (g : GlobalSt) (i : Nat) (f : PopupSt → PopupSt) : GlobalSt :=
  { g with popups := g.popups.set i (f (getPopup g i)) }

def modifyAttempt (g : GlobalSt) (j : Nat) (f : AttemptSt → AttemptSt) : GlobalSt :=
  { g with attempts := g.attempts.set j (f (getAttempt g j)) }

def closePopup (g : GlobalSt) (i : Nat) : GlobalSt := modifyPopup g i PopupSt.close

def registerListener (g : GlobalSt) (i : Nat) (name : String) (tag : HTag) : GlobalSt :=
  modifyPopup g i (fun p => { p with listeners := setListener name tag p.listeners })

/-- `clearTimeout(domainPopUpTimeout)`: cancels whichever attempt's domain timer
the module variable currently references. -/
def clearDomainTimerVar (g : GlobalSt) : GlobalSt :=
  modifyAttempt g g.domainTimerVar (fun b => { b with domainTimerArmed := false })

/-- `clearTimeout(authTimeout)`. -/
def clearAuthTimerVar (g : GlobalSt) : GlobalSt :=
  modifyAttempt g g.authTimerVar (fun b => { b with authTimerArmed := false })

/-- openDomainPopUp's `onAborted` callback (index.ts 148-156):
`POPUP_STATE.open = false; clearTimeout(domainPopUpTimeout); popUp.close()`.
It neither resolves nor rejects the pending promise. -/
def runDomAborted (g : GlobalSt) (j : Nat) : GlobalSt :=
  let a := getAttempt g j
  let g := { g with popupStateOpen := false }
  let g := clearDomainTimerVar g
  closePopup g a.popupIdx

/-- openDomainPopUp's `onDomain` callback (index.ts 127-146):
`clearTimeout(domainPopUpTimeout); configuration.domain = popup.getDomain()`
(the module-level `popup`), then `authenticate(configuration, popup)` begins,
whose first awaited step (`computeAuthorizationUrl`) issues the
session-initialization POST. -/
def runDomDomain (g : GlobalSt) (j : Nat) : GlobalSt :=
  let lastPopup := g.popups.length - 1
  let dom := (getPopup g lastPopup).domain
  let g := clearDomainTimerVar g
  let g := modifyAttempt g j (fun b => { b with
    cfg := { b.cfg with domain := dom }, curPopupIdx := lastPopup,
    phase := .computingUrl })
  { g with calls := g.calls ++ [HttpReq.createSession dom] }

/-- openAuthPopUp's `onAborted` callback (index.ts 180-188):
`POPUP_STATE.open = false; clearTimeout(authTimeout); popUp.close()`.
It neither resolves nor rejects. -/
def runAuthAborted (g : GlobalSt) (j : Nat) : GlobalSt :=
  let a := getAttempt g j
  let g := { g with popupStateOpen := false }
  let g := clearAuthTimerVar g
  closePopup g a.curPopupIdx

/-- openAuthPopUp's `onSuccess` callback (index.ts 190-199) plus the
continuation in `authenticate` (index.ts 92-95): after `resolve()`,
`pollOauthSession` runs and issues the poll POST. -/
def runAuthSuccess (g : GlobalSt) (j : Nat) : GlobalSt :=
  let a := getAttempt g j
  let g := { g with popupStateOpen := false }
  let g := clearAuthTimerVar g
  let g := modifyAttempt g j (fun b => { b with phase := .polling })
  let g := closePopup g a.curPopupIdx
  { g with calls := g.calls ++ [HttpReq.poll a.cfg.domain a.sessionId] }

/-- openAuthPopUp's `onCancelled` callback body (index.ts 201-210):
`POPUP_STATE.open = false; clearTimeout(authTimeout); popUp.close()`.
It neither resolves nor rejects the promise (which has no reject parameter). -/
def runAuthCancelled (g : GlobalSt) (j : Nat) : GlobalSt :=
  let a := getAttempt g j
  let g := { g with popupStateOpen := false }
  let g := clearAuthTimerVar g
  closePopup g a.curPopupIdx

def runHandler (g : GlobalSt) (t : HTag) : GlobalSt :=
  match t.kind with
  | .domDomain => runDomDomain g t.attempt
  | .domAborted => runDomAborted g t.attempt
  | .authAborted => runAuthAborted g t.attempt
  | .authSuccess => runAuthSuccess g t.attempt
  | .authCancelled => runAuthCancelled g t.attempt

/-- `Popup.call(name)` (Popup.ts 101-105): run the callback registered under
`name`, if any. -/
def popupCall (g : GlobalSt) (i : Nat) (name : String) : GlobalSt :=
  match getListener name (getPopup g i).listeners with
  | some t => runHandler g t
  | none => g

/-- A cross-window message payload: either a string or an object with optional
`domain`/`aborted` fields (`domain = ""` models an absent or falsy field). -/
inductive MsgData
  | strMsg (s : String)
  | objMsg (domain : String) (aborted : Bool)
deriving DecidableEq, Repr

def EVENT_NAME_CANCELLED : String := "frontify-oauth-authorize-cancelled"
def EVENT_NAME_SUCCESS : String := "frontify-oauth-authorize-success"

/-- One popup's `window` message listener (Popup.ts `attachEventListeners`,
lines 56-75): switch on the payload; note that `Popup.call` is invoked with
`EVENT_METHOD_CANCELLED = "cancelled"` while `onCancelled` registered its
callback under the key `"canceled"` (Popup.ts line 124). -/
def popupOnMessage (g : GlobalSt) (i : Nat) (d : MsgData) : GlobalSt :=
  if (getPopup g i).listenerRegistered then
    match d with
    | .strMsg s =>
        if s = EVENT_NAME_CANCELLED then popupCall g i "cancelled"
        else if s = EVENT_NAME_SUCCESS then popupCall g i "success"
        else g
    | .objMsg dom ab =>
        if dom ≠ "" then
          popupCall (modifyPopup g i (fun p => { p with domain := dom })) i "domain"
        else if ab then popupCall g i "aborted"
        else g
  else g

/-- A message event delivered to the window: every still-registered popup
listener sees it, in registration (= creation) order. -/
def dispatchMessage (g : GlobalSt) (d : MsgData) : GlobalSt :=
  (List.range g.popups.length).foldl (fun g i => popupOnMessage g i d) g

/-- One firing of a popup's 100ms interval (Popup.ts 47-54): if the window
reports closed, clear the interval and fire "cancelled" then "aborted". -/
def tickPopup (g : GlobalSt) (i : Nat) : GlobalSt :=
  let p := getPopup g i
  if p.intervalActive && !p.windowOpen then
    let g := modifyPopup g i (fun q =>
      { q with intervalActive := false, intervalClears := q.intervalClears + 1 })
    let g := popupCall g i "cancelled"
    popupCall g i "aborted"
  else g

/-- The user closes the popup window natively. -/
def userClosesWindow (g : GlobalSt) (i : Nat) : GlobalSt :=
  modifyPopup g i (fun p => { p with windowOpen := false })

/-- The domain-phase 5-minute `setTimeout` callback firing (index.ts 117-125):
`POPUP_STATE.open = false; popUp.close()`. It neither resolves nor rejects. -/
def runDomainTimeout (g : GlobalSt) (j : Nat) : GlobalSt :=
  if (getAttempt g j).domainTimerArmed then
    let a := getAttempt g j
    let g := { g with popupStateOpen := false }
    let g := modifyAttempt g j (fun b => { b with domainTimerArmed := false })
    closePopup g a.popupIdx
  else g

/-- The auth-phase 5-minute `setTimeout` callback firing (index.ts 171-178):
`POPUP_STATE.open = false; popUp.close()`. It neither resolves nor rejects. -/
def runAuthTimeout (g : GlobalSt) (j : Nat) : GlobalSt :=
  if (getAttempt g j).authTimerArmed then
    let a := getAttempt g j
    let g := { g with popupStateOpen := false }
    let g := modifyAttempt g j (fun b => { b with authTimerArmed := false })
    closePopup g a.curPopupIdx
  else g

/-- The propagation of a failure thrown by `authenticate` for attempt `j`
(index.ts 96-106 catch, 127-141 onDomain then/catch, 34-73 authorize):
in the direct flow authorize() rejects with the error; in the domain flow
onDomain's catch calls a bare `reject()` unless the code is ERR_AUTH_SESSION,
in which case it deletes `configuration.domain` and the domain promise stays
pending (the user may submit another domain). -/
def failAttempt (g : GlobalSt) (j : Nat) (code : String) : GlobalSt :=
  if (getAttempt g j).viaDomain then
    if code = "ERR_AUTH_SESSION" then
      modifyAttempt g j (fun b =>
        { b with cfg := { b.cfg with domain := "" }, phase := .domainWait })
    else
      modifyAttempt g j (fun b => { b with result := .rejected "", phase := .doneErr })
  else
    modifyAttempt g j (fun b => { b with result := .rejected code, phase := .doneErr })

/-- The session-initialization HTTP response arriving for attempt `j`
(Oauth module 44-79 + authenticate, index.ts 89-107). On success,
`computeAuthorizationUrl` returns and `openAuthPopUp` (index.ts 162-211) runs:
`navigateToUrl` (Popup.ts 136-143) succeeds only on an open window, then the
5-minute timer is armed and `onAborted`/`onSuccess`/`onCancelled` are
registered — `onCancelled` under the key "canceled". On a closed window,
navigateToUrl throws ERR_AUTH_POPUP_CLOSED and authenticate's generic catch
clears POPUP_STATE and throws ERR_AUTH. On an HTTP failure the chain
ERR_SESSION → ERR_AUTH_COMPUTE_URL → ERR_AUTH_SESSION is thrown without
touching POPUP_STATE. -/
def sessionInitResp (g : GlobalSt) (j : Nat) (resp : Option String) : GlobalSt :=
  let a := getAttempt g j
  if a.phase = .computingUrl then
    match resp with
    | some key =>
        if (getPopup g a.curPopupIdx).windowOpen then
          let g := modifyAttempt g j (fun b =>
            { b with sessionId := key, authTimerArmed := true, phase := .authWait })
          let g := { g with authTimerVar := j }
          let g := registerListener g a.curPopupIdx "aborted" ⟨.authAborted, j⟩
          let g := registerListener g a.curPopupIdx "success" ⟨.authSuccess, j⟩
          registerListener g a.curPopupIdx "canceled" ⟨.authCancelled, j⟩
        else
          failAttempt { g with popupStateOpen := false } j "ERR_AUTH"
    | none => failAttempt g j "ERR_AUTH_SESSION"
  else g

/-- The poll HTTP response for attempt `j` (Oauth module 81-102 + authenticate,
index.ts 92-95): a 2xx carries the authorization code and `getAccessToken`'s
POST is issued; a failure surfaces as ERR_AUTH_POLL and authenticate's generic
catch clears POPUP_STATE and throws ERR_AUTH. -/
def pollResp (g : GlobalSt) (j : Nat) (resp : Option String) : GlobalSt :=
  let a := getAttempt g j
  if a.phase = .polling then
    match resp with
    | some code =>
        let g := modifyAttempt g j (fun b => { b with phase := .exchanging })
        { g with calls := g.calls
            ++ [HttpReq.accessToken a.cfg.domain a.cfg.clientId code] }
    | none => failAttempt { g with popupStateOpen := false } j "ERR_AUTH"
  else g

/-- The token-exchange HTTP response for attempt `j` (getAccessToken, Oauth
module 104-138, + the resolution paths in index.ts 34-73 and 127-146): a 2xx
response is mapped into the `Token`, the module-level `token` is set, and the
pending authorize() promise resolves with it; a failure follows authenticate's
generic catch. -/
def exchangeResp (g : GlobalSt) (j : Nat)
    (resp : Option (String × Nat × String)) : GlobalSt :=
  let a := getAttempt g j
  if a.phase = .exchanging then
    match resp with
    | some (accessTok, expIn, refreshTok) =>
        let tok : TokenSt := ⟨⟨"Bearer", expIn, accessTok, refreshTok,
          normalizeDomain a.cfg.domain⟩, a.cfg.clientId, a.cfg.scopes⟩
        let g := { g with popupStateOpen := false, moduleToken := some tok }
        modifyAttempt g j (fun b => { b with result := .resolvedTok tok, phase := .doneOk })
    | none => failAttempt { g with popupStateOpen := false } j "ERR_AUTH"
  else g

/-- `authorize()` entry (index.ts 34-66): if `POPUP_STATE.open`, force-close the
module-level popup (the most recently created one); construct a fresh Popup; set
the flag; then either enter `openDomainPopUp` (empty domain: navigate to the
finder page, arm the domain timer, register onDomain and onAborted) or call
`authenticate` directly (non-empty domain: `computeAuthorizationUrl` starts and
its session-initialization POST is issued). -/
def enterBody (g : GlobalSt) (cfg : ConfigSt) : GlobalSt :=
  let pIdx := g.popups.length
  let j := g.attempts.length
  let g := { g with popups := g.popups ++ [PopupSt.fresh], popupStateOpen := true }
  if cfg.domain = "" then
    let g := { g with
      attempts := g.attempts
        ++ [(⟨cfg, pIdx, pIdx, true, .domainWait, true, false, "", .pending⟩ : AttemptSt)],
      domainTimerVar := j }
    let g := registerListener g pIdx "domain" ⟨.domDomain, j⟩
    registerListener g pIdx "aborted" ⟨.domAborted, j⟩
  else
    let g := { g with
      attempts := g.attempts
        ++ [(⟨cfg, pIdx, pIdx, false, .computingUrl, false, false, "", .pending⟩ : AttemptSt)] }
    { g with calls := g.calls ++ [HttpReq.createSession cfg.domain] }

/-- `authorize()` entry, first statement (index.ts 38-40): the force-close of
the module popup when POPUP_STATE is still open, followed by the body. -/
def enterAuthorize (g : GlobalSt) (cfg : ConfigSt) : GlobalSt :=
  enterBody (if g.popupStateOpen then closePopup g (g.popups.length - 1) else g) cfg

/-- The events that can occur. -/
inductive Event
  | enter (cfg : ConfigSt)
  | message (d : MsgData)
  | tick (i : Nat)
  | userClose (i : Nat)
  | domainTimeout (j : Nat)
  | authTimeout (j : Nat)
  | sessionInit (j : Nat) (resp : Option String)
  | pollDone (j : Nat) (resp : Option String)
  | exchangeDone (j : Nat) (resp : Option (String × Nat × String))
deriving DecidableEq, Repr

def step (g : GlobalSt) : Event → GlobalSt
  | .enter cfg => enterAuthorize g cfg
  | .message d => dispatchMessage g d
  | .tick i => tickPopup g i
  | .userClose i => userClosesWindow g i
  | .domainTimeout j => runDomainTimeout g j
  | .authTimeout j => runAuthTimeout g j
  | .sessionInit j r => sessionInitResp g j r
  | .pollDone j r => pollResp g j r
  | .exchangeDone j r => exchangeResp g j r

def run (events : List Event) : GlobalSt := events.foldl step GlobalSt.init

/-- Number of popup windows currently open. -/
def countOpen (g : GlobalSt) : Nat := (g.popups.filter (fun p => p.windowOpen)).length

def attemptResult (g : GlobalSt) (j : Nat) : PromiseSt := (getAttempt g j).result

/-! ## Concrete runs settling the behavioural claims -/

/-- The configuration of the specification's end-to-end test. -/
def cfg4 : ConfigSt := ⟨"example.frontify.test", "abc", ["basic"]⟩

/-- The happy-path trace: authorize() with a domain, session-init answers "s1",
the popup posts the success sentinel, the poll answers "c1", the token exchange
answers the mock token fields. -/
def c4Trace : List Event :=
  [.enter cfg4, .sessionInit 0 (some "s1"), .message (.strMsg EVENT_NAME_SUCCESS),
   .pollDone 0 (some "c1"), .exchangeDone 0 (some ("at1", 3600, "rt1"))]

/-- C4 — confirmed. On the scenario's mocks, authorize() resolves with exactly
the Token carrying the literal "Bearer" type, the mock expiry/access/refresh
values, the normalized domain, and the config's clientId and scopes unchanged;
the HTTP calls are session-init, then poll, then exchange, in order. -/
theorem C4_happy_path_token :
    attemptResult (run c4Trace) 0
      = .resolvedTok ⟨⟨"Bearer", 3600, "at1", "rt1", "example.frontify.test"⟩,
        "abc", ["basic"]⟩
    ∧ (run c4Trace).calls = [.createSession "example.frontify.test",
        .poll "example.frontify.test" "s1",
        .accessToken "example.frontify.test" "abc" "c1"] := by decide

/-- The first two events of the cancellation run: authorize() with a domain and
a successful session-init, after which the popup shows the authorization URL. -/
def c1Prefix : List Event := [.enter cfg4, .sessionInit 0 (some "s1")]

/-- C1 — the code at the claim's failing input. After navigation to the
authorization URL, the cancel callback is registered under the listener key
"canceled" while the dispatcher invoked for the cancelled sentinel looks up
"cancelled"; hence the sentinel message changes nothing at all: the state is
bit-for-bit unchanged, authorize()'s promise stays pending forever — it does
not reject with any AuthorizationCancelled error — and no poll or
token-exchange request is ever issued (only the earlier session-init one). -/
theorem C1_cancel_message_is_ignored :
    getListener "cancelled" (getPopup (run c1Prefix) 0).listeners = none
    ∧ getListener "canceled" (getPopup (run c1Prefix) 0).listeners
        = some ⟨.authCancelled, 0⟩
    ∧ step (run c1Prefix) (.message (.strMsg EVENT_NAME_CANCELLED)) = run c1Prefix
    ∧ attemptResult (run (c1Prefix ++ [.message (.strMsg EVENT_NAME_CANCELLED)])) 0
        = .pending
    ∧ (run (c1Prefix ++ [.message (.strMsg EVENT_NAME_CANCELLED)])).calls
        = [.createSession "example.frontify.test"] := by decide

/-- A configuration without a domain (the domain-discovery flow). -/
def cfgNoDomain : ConfigSt := ⟨"", "abc", ["basic"]⟩

/-- C2 — the code at the claim's failing input. When the 5-minute timeout fires
with no message or close event — in the authorization-pending phase (first
conjunct block) or the domain-discovery phase (second block) — the popup
resources are indeed released (window closed, interval cleared, message
listener unregistered, callback map emptied, POPUP_STATE cleared), but the
pending authorize() promise is never settled: it stays pending instead of
rejecting with any AuthorizationTimedOut error. -/
theorem C2_timeout_releases_resources_but_never_rejects :
    ((getPopup (run [.enter cfg4, .sessionInit 0 (some "s1"), .authTimeout 0]) 0).windowOpen
        = false
    ∧ (getPopup (run [.enter cfg4, .sessionInit 0 (some "s1"), .authTimeout 0]) 0).intervalActive
        = false
    ∧ (getPopup (run [.enter cfg4, .sessionInit 0 (some "s1"), .authTimeout 0]) 0).listenerRegistered
        = false
    ∧ (getPopup (run [.enter cfg4, .sessionInit 0 (some "s1"), .authTimeout 0]) 0).listeners = []
    ∧ (run [.enter cfg4, .sessionInit 0 (some "s1"), .authTimeout 0]).popupStateOpen = false
    ∧ attemptResult (run [.enter cfg4, .sessionInit 0 (some "s1"), .authTimeout 0]) 0 = .pending)
    ∧ ((getPopup (run [.enter cfgNoDomain, .domainTimeout 0]) 0).windowOpen = false
    ∧ (getPopup (run [.enter cfgNoDomain, .domainTimeout 0]) 0).intervalActive = false
    ∧ (getPopup (run [.enter cfgNoDomain, .domainTimeout 0]) 0).listenerRegistered = false
    ∧ (getPopup (run [.enter cfgNoDomain, .domainTimeout 0]) 0).listeners = []
    ∧ (run [.enter cfgNoDomain, .domainTimeout 0]).popupStateOpen = false
    ∧ attemptResult (run [.enter cfgNoDomain, .domainTimeout 0]) 0 = .pending) := by decide

/-- The user closes the popup window during the authorization-pending phase;
the next 100ms interval firing detects it. -/
def c7Trace : List Event :=
  [.enter cfg4, .sessionInit 0 (some "s1"), .userClose 0, .tick 0]

/-- C7 — the code at the claim's failing input. When the user closes the popup
before any terminal signal, the 100ms poll detects it and fires "cancelled"
(dead, due to the "canceled" listener-key mismatch) and "aborted": the interval
is cleared exactly once and the message listener unregistered exactly once, the
callback map is emptied and POPUP_STATE cleared — but the pending authorize()
promise is never rejected: it stays pending. -/
theorem C7_user_close_tears_down_once_but_never_rejects :
    (getPopup (run c7Trace) 0).intervalClears = 1
    ∧ (getPopup (run c7Trace) 0).listenerRemovals = 1
    ∧ (getPopup (run c7Trace) 0).listeners = []
    ∧ (getPopup (run c7Trace) 0).windowOpen = false
    ∧ (run c7Trace).popupStateOpen = false
    ∧ attemptResult (run c7Trace) 0 = .pending := by decide

/-- C8 — confirmed. With an empty config domain the domain-discovery phase runs
first; a cross-window message with object payload `{domain: "other.test"}`
updates the configuration's domain to "other.test" and authenticate proceeds:
the session-initialization POST goes to that domain. -/
theorem C8_domain_message_updates_config (clientId : String) (scopes : List String) :
    (getAttempt (run [.enter ⟨"", clientId, scopes⟩,
        .message (.objMsg "other.test" false)]) 0).cfg.domain = "other.test"
    ∧ (getAttempt (run [.enter ⟨"", clientId, scopes⟩,
        .message (.objMsg "other.test" false)]) 0).phase = .computingUrl
    ∧ (run [.enter ⟨"", clientId, scopes⟩,
        .message (.objMsg "other.test" false)]).calls
      = [.createSession "other.test"] := by
  refine ⟨?_, ?_, ?_⟩ <;> rfl

/-- C3 — counterexample to the claim as stated. Three authorize() calls: the
first reaches the authorization-pending phase (its 5-minute timer armed); the
second force-closes the first popup (but nothing cancels the first attempt's
timer); the stale timer then fires, clearing POPUP_STATE.open while the second
popup is still open; the third call therefore skips the force-close and opens a
popup next to the still-open second one: two popups are open at once. -/
theorem C3_counterexample_two_popups :
    countOpen (run [.enter cfg4, .sessionInit 0 (some "s1"), .enter cfg4,
      .authTimeout 0, .enter cfg4]) = 2 := by decide

/-! ## The single-popup invariant on runs without stale firings (C3, amended)

The counterexample above shows the invariant fails once a timer (or other
continuation) belonging to a superseded attempt fires after a newer attempt has
started. Below we prove the amended claim: the entry force-close does happen
whenever the flag is set, and on every run in which no handler, timer callback
or HTTP continuation of a superseded attempt executes, at most one popup is
open at every point. -/

theorem getD_set_self {α : Type} :
    ∀ (l : List α) (i : Nat) (a d : α), i < l.length → (l.set i a).getD i d = a := by
  intro l
  induction l with
  | nil => intro i a d h; simp at h
  | cons x t ih =>
    intro i a d h
    cases i with
    | zero => rfl
    | succ n => exact ih n a d (by simpa using h)

theorem getD_set_ne {α : Type} :
    ∀ (l : List α) (i k : Nat) (a d : α), i ≠ k → (l.set i a).getD k d = l.getD k d := by
  intro l
  induction l with
  | nil => intro i k a d _; simp
  | cons x t ih =>
    intro i k a d h
    cases i with
    | zero =>
      cases k with
      | zero => exact absurd rfl h
      | succ m => rfl
    | succ n =>
      cases k with
      | zero => rfl
      | succ m =>
        show (t.set n a).getD m d = t.getD m d
        exact ih n m a d (fun hc => h (by rw [hc]))

theorem set_oob {α : Type} :
    ∀ (l : List α) (i : Nat) (a : α), l.length ≤ i → l.set i a = l := by
  intro l
  induction l with
  | nil => intro i a _; simp
  | cons x t ih =>
    intro i a h
    cases i with
    | zero => simp at h
    | succ n => show x :: t.set n a = x :: t; rw [ih n a (by simpa using h)]

theorem getD_append_left {α : Type} :
    ∀ (l m : List α) (i : Nat) (d : α), i < l.length → (l ++ m).getD i d = l.getD i d := by
  intro l
  induction l with
  | nil => intro m i d h; simp at h
  | cons x t ih =>
    intro m i d h
    cases i with
    | zero => rfl
    | succ n => exact ih m n d (by simpa using h)

theorem getD_append_len {α : Type} :
    ∀ (l : List α) (a d : α), (l ++ [a]).getD l.length d = a := by
  intro l
  induction l with
  | nil => intro a d; rfl
  | cons x t ih => intro a d; exact ih a d

theorem getD_oob {α : Type} :
    ∀ (l : List α) (i : Nat) (d : α), l.length ≤ i → l.getD i d = d := by
  intro l
  induction l with
  | nil => intro i d _; cases i <;> rfl
  | cons x t ih =>
    intro i d h
    cases i with
    | zero => simp at h
    | succ n => exact ih n d (by simpa using h)

/-- The inductive invariant: attempts and popups are in one-to-one creation
order, every registered callback tags its own attempt, every popup but the most
recent is closed, a cleared POPUP_STATE flag means every popup window is
closed, and once the most recent attempt is polling or exchanging the flag is
already cleared. -/
structure Inv (g : GlobalSt) : Prop where
  len_eq : g.attempts.length = g.popups.length
  idx : ∀ j, j < g.attempts.length →
    (getAttempt g j).popupIdx = j ∧ (getAttempt g j).curPopupIdx = j
  tags : ∀ i, ∀ nt ∈ (getPopup g i).listeners, nt.2.attempt = i
  olds_closed : ∀ i, i + 1 < g.popups.length → (getPopup g i).windowOpen = false
  flag_closed : g.popupStateOpen = false → ∀ i, (getPopup g i).windowOpen = false
  late_flag : ∀ j, j + 1 = g.attempts.length →
    ((getAttempt g j).phase = .polling ∨ (getAttempt g j).phase = .exchanging) →
    g.popupStateOpen = false

theorem inv_init : Inv GlobalSt.init := by
  refine ⟨rfl, ?_, ?_, ?_, ?_, ?_⟩
  · intro j h; simp [GlobalSt.init] at h
  · intro i nt h
    simp [GlobalSt.init, getPopup, getD_oob, PopupSt.phantom] at h
  · intro i h; simp [GlobalSt.init] at h
  · intro _ i
    show (List.getD [] i PopupSt.phantom).windowOpen = false
    cases i <;> rfl
  · intro j h; simp [GlobalSt.init] at h

theorem filter_open_le_one :
    ∀ (l : List PopupSt),
      (∀ i, i + 1 < l.length → (l.getD i PopupSt.phantom).windowOpen = false) →
      (l.filter (fun p => p.windowOpen)).length ≤ 1 := by
  intro l
  induction l with
  | nil => intro _; simp
  | cons a t ih =>
    intro h
    cases t with
    | nil =>
      by_cases ha : a.windowOpen = true
      · simp [List.filter, ha]
      · simp only [Bool.not_eq_true] at ha
        simp [List.filter, ha]
    | cons b u =>
      have ha : a.windowOpen = false := h 0 (by simp)
      rw [List.filter_cons_of_neg (by simp [ha])]
      apply ih
      intro i hi
      exact h (i + 1) (by simpa using Nat.succ_lt_succ hi)

theorem countOpen_le_one {g : GlobalSt} (hInv : Inv g) : countOpen g ≤ 1 := by
  unfold countOpen
  exact filter_open_le_one g.popups (fun i hi => hInv.olds_closed i hi)

/-! ### Pointwise views of the primitive state operations -/

theorem getD_set_cases {α : Type} (l : List α) (i k : Nat) (a d : α) :
    (l.set i a).getD k d = if i = k ∧ i < l.length then a else l.getD k d := by
  by_cases h1 : i = k
  · by_cases h2 : i < l.length
    · rw [if_pos ⟨h1, h2⟩]
      subst h1
      exact getD_set_self l i a d h2
    · rw [if_neg (fun hc => h2 hc.2), set_oob l i a (Nat.le_of_not_lt h2)]
  · rw [if_neg (fun hc => h1 hc.1)]
    exact getD_set_ne l i k a d h1

theorem getD_append_cases {α : Type} (l : List α) (a : α) (k : Nat) (d : α) :
    (l ++ [a]).getD k d =
      if k < l.length then l.getD k d else if k = l.length then a else d := by
  by_cases h1 : k < l.length
  · rw [if_pos h1]; exact getD_append_left l [a] k d h1
  · rw [if_neg h1]
    by_cases h2 : k = l.length
    · rw [if_pos h2]; subst h2; exact getD_append_len l a d
    · rw [if_neg h2]
      apply getD_oob
      simp only [List.length_append, List.length_singleton]
      omega

theorem getAttempt_modify (g : GlobalSt) (v k : Nat) (f : AttemptSt → AttemptSt) :
    getAttempt (modifyAttempt g v f) k =
      if v = k ∧ v < g.attempts.length then f (getAttempt g v) else getAttempt g k :=
  getD_set_cases g.attempts v k _ _

theorem getPopup_modify (g : GlobalSt) (v k : Nat) (f : PopupSt → PopupSt) :
    getPopup (modifyPopup g v f) k =
      if v = k ∧ v < g.popups.length then f (getPopup g v) else getPopup g k :=
  getD_set_cases g.popups v k _ _

theorem modifyAttempt_len (g : GlobalSt) (v : Nat) (f : AttemptSt → AttemptSt) :
    (modifyAttempt g v f).attempts.length = g.attempts.length := by
  simp [modifyAttempt]

theorem modifyPopup_len (g : GlobalSt) (v : Nat) (f : PopupSt → PopupSt) :
    (modifyPopup g v f).popups.length = g.popups.length := by
  simp [modifyPopup]

theorem getPopup_oob (g : GlobalSt) (i : Nat) (h : g.popups.length ≤ i) :
    getPopup g i = PopupSt.phantom := getD_oob _ _ _ h

@[simp] theorem getAttempt_calls_set (X : GlobalSt) (c : List HttpReq) (k : Nat) :
    getAttempt { X with calls := c } k = getAttempt X k := rfl

@[simp] theorem getAttempt_flag_set (X : GlobalSt) (b : Bool) (k : Nat) :
    getAttempt { X with popupStateOpen := b } k = getAttempt X k := rfl

@[simp] theorem getAttempt_modifyPopup (X : GlobalSt) (i : Nat) (f : PopupSt → PopupSt)
    (k : Nat) : getAttempt (modifyPopup X i f) k = getAttempt X k := rfl

@[simp] theorem getAttempt_closePopup (X : GlobalSt) (i k : Nat) :
    getAttempt (closePopup X i) k = getAttempt X k := rfl

@[simp] theorem getAttempt_registerListener (X : GlobalSt) (i : Nat) (n : String)
    (t : HTag) (k : Nat) : getAttempt (registerListener X i n t) k = getAttempt X k := rfl

@[simp] theorem getPopup_calls_set (X : GlobalSt) (c : List HttpReq) (k : Nat) :
    getPopup { X with calls := c } k = getPopup X k := rfl

@[simp] theorem getPopup_flag_set (X : GlobalSt) (b : Bool) (k : Nat) :
    getPopup { X with popupStateOpen := b } k = getPopup X k := rfl

@[simp] theorem getPopup_modifyAttempt (X : GlobalSt) (v : Nat) (f : AttemptSt → AttemptSt)
    (k : Nat) : getPopup (modifyAttempt X v f) k = getPopup X k := rfl

@[simp] theorem popups_calls_set (X : GlobalSt) (c : List HttpReq) :
    ({ X with calls := c } : GlobalSt).popups = X.popups := rfl

@[simp] theorem popups_flag_set (X : GlobalSt) (b : Bool) :
    ({ X with popupStateOpen := b } : GlobalSt).popups = X.popups := rfl

@[simp] theorem popups_modifyAttempt (X : GlobalSt) (v : Nat) (f : AttemptSt → AttemptSt) :
    (modifyAttempt X v f).popups = X.popups := rfl

@[simp] theorem popups_closePopup (X : GlobalSt) (i : Nat) :
    (closePopup X i).popups = X.popups.set i (PopupSt.close (getPopup X i)) := rfl

@[simp] theorem popups_registerListener (X : GlobalSt) (i : Nat) (n : String) (t : HTag) :
    (registerListener X i n t).popups
      = X.popups.set i { getPopup X i with
          listeners := setListener n t (getPopup X i).listeners } := rfl

@[simp] theorem attempts_calls_set (X : GlobalSt) (c : List HttpReq) :
    ({ X with calls := c } : GlobalSt).attempts = X.attempts := rfl

@[simp] theorem attempts_flag_set (X : GlobalSt) (b : Bool) :
    ({ X with popupStateOpen := b } : GlobalSt).attempts = X.attempts := rfl

@[simp] theorem attempts_modifyPopup (X : GlobalSt) (i : Nat) (f : PopupSt → PopupSt) :
    (modifyPopup X i f).attempts = X.attempts := rfl

@[simp] theorem attempts_closePopup (X : GlobalSt) (i : Nat) :
    (closePopup X i).attempts = X.attempts := rfl

@[simp] theorem attempts_registerListener (X : GlobalSt) (i : Nat) (n : String) (t : HTag) :
    (registerListener X i n t).attempts = X.attempts := rfl

@[simp] theorem attempts_modifyAttempt (X : GlobalSt) (v : Nat) (f : AttemptSt → AttemptSt) :
    (modifyAttempt X v f).attempts = X.attempts.set v (f (getAttempt X v)) := rfl

@[simp] theorem flag_modifyAttempt (X : GlobalSt) (v : Nat) (f : AttemptSt → AttemptSt) :
    (modifyAttempt X v f).popupStateOpen = X.popupStateOpen := rfl

@[simp] theorem flag_modifyPopup (X : GlobalSt) (i : Nat) (f : PopupSt → PopupSt) :
    (modifyPopup X i f).popupStateOpen = X.popupStateOpen := rfl

@[simp] theorem flag_closePopup (X : GlobalSt) (i : Nat) :
    (closePopup X i).popupStateOpen = X.popupStateOpen := rfl

@[simp] theorem flag_registerListener (X : GlobalSt) (i : Nat) (n : String) (t : HTag) :
    (registerListener X i n t).popupStateOpen = X.popupStateOpen := rfl

@[simp] theorem flag_calls_set (X : GlobalSt) (c : List HttpReq) :
    ({ X with calls := c } : GlobalSt).popupStateOpen = X.popupStateOpen := rfl

@[simp] theorem authTimerVar_flag_set (X : GlobalSt) (b : Bool) :
    ({ X with popupStateOpen := b } : GlobalSt).authTimerVar = X.authTimerVar := rfl

@[simp] theorem domainTimerVar_flag_set (X : GlobalSt) (b : Bool) :
    ({ X with popupStateOpen := b } : GlobalSt).domainTimerVar = X.domainTimerVar := rfl

/-! ### Staleness -/

/-- Whether a message `d` delivered to popup `i` would execute a registered
callback. -/
def msgHitsPopup (g : GlobalSt) (i : Nat) (d : MsgData) : Bool :=
  (getPopup g i).listenerRegistered &&
    match d with
    | .strMsg s =>
        if s = EVENT_NAME_CANCELLED then
          (getListener "cancelled" (getPopup g i).listeners).isSome
        else if s = EVENT_NAME_SUCCESS then
          (getListener "success" (getPopup g i).listeners).isSome
        else false
    | .objMsg dom ab =>
        if dom ≠ "" then (getListener "domain" (getPopup g i).listeners).isSome
        else if ab then (getListener "aborted" (getPopup g i).listeners).isSome
        else false

/-- Whether the interval firing on popup `i` would execute a registered
callback. -/
def tickFires (g : GlobalSt) (i : Nat) : Bool :=
  (getPopup g i).intervalActive && !(getPopup g i).windowOpen &&
    ((getListener "cancelled" (getPopup g i).listeners).isSome
      || (getListener "aborted" (getPopup g i).listeners).isSome)

/-- An event is stale when it would execute code — a registered callback, a
5-minute timer callback, or an HTTP continuation — belonging to a superseded
authorize() attempt (any attempt, or popup, other than the most recently
created one). -/
def staleEvent (g : GlobalSt) : Event → Bool
  | .enter _ => false
  | .userClose _ => false
  | .message d => (List.range g.popups.length).any
      (fun i => !(decide (i + 1 = g.popups.length)) && msgHitsPopup g i d)
  | .tick i => !(decide (i + 1 = g.popups.length)) && tickFires g i
  | .domainTimeout j =>
      !(decide (j + 1 = g.attempts.length)) && (getAttempt g j).domainTimerArmed
  | .authTimeout j =>
      !(decide (j + 1 = g.attempts.length)) && (getAttempt g j).authTimerArmed
  | .sessionInit j _ =>
      !(decide (j + 1 = g.attempts.length))
        && decide ((getAttempt g j).phase = .computingUrl)
  | .pollDone j _ =>
      !(decide (j + 1 = g.attempts.length)) && decide ((getAttempt g j).phase = .polling)
  | .exchangeDone j _ =>
      !(decide (j + 1 = g.attempts.length))
        && decide ((getAttempt g j).phase = .exchanging)

/-- A run in which no event executes code of a superseded attempt. -/
def noStaleB : GlobalSt → List Event → Bool
  | _, [] => true
  | g, e :: rest => !staleEvent g e && noStaleB (step g e) rest

/-! ### Preservation of the invariant -/

/-- The common shape of the terminal handlers: the flag ends cleared, the
attempt list keeps its length and every attempt its popup indices, and the
popups are those of `g` with the one at the last attempt's index closed. -/
theorem inv_close_shape {g g' : GlobalSt} (hInv : Inv g) {j : Nat}
    (hj : j + 1 = g.attempts.length)
    (hflag : g'.popupStateOpen = false)
    (halen : g'.attempts.length = g.attempts.length)
    (hidx : ∀ k, (getAttempt g' k).popupIdx = (getAttempt g k).popupIdx
      ∧ (getAttempt g' k).curPopupIdx = (getAttempt g k).curPopupIdx)
    (hpops : g'.popups = g.popups.set j (PopupSt.close (getPopup g j))) :
    Inv g' := by
  have hjl : j < g.attempts.length := by omega
  have hjp : j + 1 = g.popups.length := by rw [← hInv.len_eq]; exact hj
  have hplen : g'.popups.length = g.popups.length := by rw [hpops]; simp
  have hgp : ∀ i, getPopup g' i
      = if j = i ∧ j < g.popups.length then PopupSt.close (getPopup g j)
        else getPopup g i := by
    intro i
    show g'.popups.getD i PopupSt.phantom = _
    rw [hpops, getD_set_cases]
    rfl
  refine ⟨?_, ?_, ?_, ?_, ?_, ?_⟩
  · rw [halen, hplen]; exact hInv.len_eq
  · intro k hk
    rw [(hidx k).1, (hidx k).2]
    exact hInv.idx k (by rwa [halen] at hk)
  · intro i nt hnt
    rw [hgp i] at hnt
    by_cases hcase : j = i ∧ j < g.popups.length
    · rw [if_pos hcase] at hnt
      simp [PopupSt.close] at hnt
    · rw [if_neg hcase] at hnt
      exact hInv.tags i nt hnt
  · intro i hi
    rw [hgp i]
    by_cases hcase : j = i ∧ j < g.popups.length
    · rw [if_pos hcase]; rfl
    · rw [if_neg hcase]
      exact hInv.olds_closed i (by rwa [hplen] at hi)
  · intro _ i
    rw [hgp i]
    by_cases hcase : j = i ∧ j < g.popups.length
    · rw [if_pos hcase]; rfl
    · rw [if_neg hcase]
      rcases Nat.lt_or_ge i g.popups.length with hlt | hge
      · rcases Nat.lt_or_ge (i + 1) g.popups.length with hlt2 | hge2
        · exact hInv.olds_closed i hlt2
        · exfalso
          exact hcase ⟨by omega, by omega⟩
      · rw [getPopup_oob g i hge]; rfl
  · intro _ _ _
    exact hflag

theorem getListener_mem {name : String} :
    ∀ {l : List (String × HTag)} {t : HTag}, getListener name l = some t → (name, t) ∈ l := by
  intro l
  induction l with
  | nil => intro t h; simp [getListener] at h
  | cons kt rest ih =>
    intro t h
    obtain ⟨k1, t1⟩ := kt
    unfold getListener at h
    by_cases hk : k1 = name
    · rw [if_pos hk] at h
      cases h
      subst hk
      exact List.mem_cons_self _ _
    · rw [if_neg hk] at h
      exact List.mem_cons_of_mem _ (ih h)

theorem setListener_mem {name : String} {tag : HTag} :
    ∀ {l : List (String × HTag)} {nt : String × HTag},
      nt ∈ setListener name tag l → nt.2 = tag ∨ nt ∈ l := by
  intro l
  induction l with
  | nil =>
    intro nt h
    simp [setListener] at h
    left; rw [h]
  | cons kt rest ih =>
    intro nt h
    unfold setListener at h
    by_cases hk : kt.1 = name
    · rw [if_pos hk] at h
      rcases List.mem_cons.mp h with rfl | h2
      · left; rfl
      · right; exact List.mem_cons_of_mem _ h2
    · rw [if_neg hk] at h
      rcases List.mem_cons.mp h with rfl | h2
      · right; exact List.mem_cons_self _ _
      · rcases ih h2 with h3 | h3
        · left; exact h3
        · right; exact List.mem_cons_of_mem _ h3

theorem inv_runDomAborted {g : GlobalSt} (hInv : Inv g) {j : Nat}
    (hj : j + 1 = g.attempts.length) : Inv (runDomAborted g j) := by
  have hjl : j < g.attempts.length := by omega
  have hpi : (getAttempt g j).popupIdx = j := (hInv.idx j hjl).1
  apply inv_close_shape hInv hj
  · rfl
  · simp [runDomAborted, clearDomainTimerVar]
  · intro k
    simp only [runDomAborted, clearDomainTimerVar, getAttempt_closePopup,
      getAttempt_modifyPopup, getAttempt_modify, getAttempt_flag_set,
      attempts_flag_set, authTimerVar_flag_set]
    split_ifs <;> simp_all
  · simp only [runDomAborted, clearDomainTimerVar, popups_closePopup,
      popups_modifyAttempt, popups_flag_set, getPopup_modifyAttempt,
      getPopup_flag_set]
    rw [hpi]

theorem inv_runAuthAborted {g : GlobalSt} (hInv : Inv g) {j : Nat}
    (hj : j + 1 = g.attempts.length) : Inv (runAuthAborted g j) := by
  have hjl : j < g.attempts.length := by omega
  have hpi : (getAttempt g j).curPopupIdx = j := (hInv.idx j hjl).2
  apply inv_close_shape hInv hj
  · rfl
  · simp [runAuthAborted, clearAuthTimerVar]
  · intro k
    simp only [runAuthAborted, clearAuthTimerVar, getAttempt_closePopup,
      getAttempt_modifyPopup, getAttempt_modify, getAttempt_flag_set,
      attempts_flag_set, authTimerVar_flag_set]
    split_ifs <;> simp_all
  · simp only [runAuthAborted, clearAuthTimerVar, popups_closePopup,
      popups_modifyAttempt, popups_flag_set, getPopup_modifyAttempt,
      getPopup_flag_set]
    rw [hpi]

theorem inv_runAuthCancelled {g : GlobalSt} (hInv : Inv g) {j : Nat}
    (hj : j + 1 = g.attempts.length) : Inv (runAuthCancelled g j) := by
  have hjl : j < g.attempts.length := by omega
  have hpi : (getAttempt g j).curPopupIdx = j := (hInv.idx j hjl).2
  apply inv_close_shape hInv hj
  · rfl
  · simp [runAuthCancelled, clearAuthTimerVar]
  · intro k
    simp only [runAuthCancelled, clearAuthTimerVar, getAttempt_closePopup,
      getAttempt_modifyPopup, getAttempt_modify, getAttempt_flag_set,
      attempts_flag_set, authTimerVar_flag_set]
    split_ifs <;> simp_all
  · simp only [runAuthCancelled, clearAuthTimerVar, popups_closePopup,
      popups_modifyAttempt, popups_flag_set, getPopup_modifyAttempt,
      getPopup_flag_set]
    rw [hpi]

theorem inv_runAuthSuccess {g : GlobalSt} (hInv : Inv g) {j : Nat}
    (hj : j + 1 = g.attempts.length) : Inv (runAuthSuccess g j) := by
  have hjl : j < g.attempts.length := by omega
  have hpi : (getAttempt g j).curPopupIdx = j := (hInv.idx j hjl).2
  apply inv_close_shape hInv hj
  · rfl
  · simp [runAuthSuccess, clearAuthTimerVar]
  · intro k
    simp only [runAuthSuccess, clearAuthTimerVar, getAttempt_calls_set,
      getAttempt_closePopup, getAttempt_modifyPopup, getAttempt_modify,
      getAttempt_flag_set, attempts_flag_set, attempts_modifyAttempt,
      authTimerVar_flag_set]
    split_ifs <;> simp_all [getD_set_cases]
  · simp only [runAuthSuccess, clearAuthTimerVar, popups_calls_set,
      popups_closePopup, popups_modifyAttempt, popups_flag_set,
      getPopup_modifyAttempt, getPopup_flag_set]
    rw [hpi]

theorem inv_runDomDomain {g : GlobalSt} (hInv : Inv g) {j : Nat}
    (hj : j + 1 = g.attempts.length) : Inv (runDomDomain g j) := by
  have hjl : j < g.attempts.length := by omega
  have hplen : g.popups.length - 1 = j := by
    rw [← hInv.len_eq]; omega
  have hpops : (runDomDomain g j).popups = g.popups := by
    simp [runDomDomain, clearDomainTimerVar]
  have hgp : ∀ i, getPopup (runDomDomain g j) i = getPopup g i := by
    intro i
    show (runDomDomain g j).popups.getD i PopupSt.phantom = _
    rw [hpops]
    rfl
  have hflag : (runDomDomain g j).popupStateOpen = g.popupStateOpen := by
    simp [runDomDomain, clearDomainTimerVar]
  have halen : (runDomDomain g j).attempts.length = g.attempts.length := by
    simp [runDomDomain, clearDomainTimerVar]
  refine ⟨?_, ?_, ?_, ?_, ?_, ?_⟩
  · rw [halen, hpops]; exact hInv.len_eq
  · intro k hk
    rw [halen] at hk
    have h1 := (hInv.idx k hk).1
    have h2 := (hInv.idx k hk).2
    constructor
    · show (getAttempt (runDomDomain g j) k).popupIdx = k
      simp only [runDomDomain, clearDomainTimerVar, modifyAttempt, getAttempt,
        getD_set_cases, List.length_set]
      split_ifs <;> simp_all [getAttempt]
    · show (getAttempt (runDomDomain g j) k).curPopupIdx = k
      simp only [runDomDomain, clearDomainTimerVar, modifyAttempt, getAttempt,
        getD_set_cases, List.length_set]
      split_ifs <;> simp_all [getAttempt]
  · intro i nt hnt
    rw [hgp i] at hnt
    exact hInv.tags i nt hnt
  · intro i hi
    rw [hgp i]
    rw [hpops] at hi
    exact hInv.olds_closed i hi
  · intro hf i
    rw [hgp i]
    rw [hflag] at hf
    exact hInv.flag_closed hf i
  · intro k hk hph
    rw [halen] at hk
    have hkj : k = j := by omega
    subst hkj
    revert hph
    simp only [runDomDomain, clearDomainTimerVar, modifyAttempt, getAttempt,
      getD_set_cases, List.length_set]
    split_ifs <;> simp_all [getAttempt]

theorem inv_runHandler {g : GlobalSt} (hInv : Inv g) {t : HTag}
    (ht : t.attempt + 1 = g.attempts.length) : Inv (runHandler g t) := by
  unfold runHandler
  cases t.kind
  · exact inv_runDomDomain hInv ht
  · exact inv_runDomAborted hInv ht
  · exact inv_runAuthAborted hInv ht
  · exact inv_runAuthSuccess hInv ht
  · exact inv_runAuthCancelled hInv ht

theorem inv_popupCall_last {g : GlobalSt} (hInv : Inv g) {i : Nat}
    (hi : i + 1 = g.popups.length) (name : String) : Inv (popupCall g i name) := by
  unfold popupCall
  cases h : getListener name (getPopup g i).listeners with
  | none => exact hInv
  | some t =>
    have hmem := getListener_mem h
    have htag : t.attempt = i := hInv.tags i (name, t) hmem
    apply inv_runHandler hInv
    rw [htag, hInv.len_eq]
    exact hi

/-! ### Message dispatch -/

/-- Between two states, every popup's message-relevant data is either unchanged
or its callback map has been emptied — the only two effects the dispatch
pipeline can have on a popup. -/
def ShrinksAt (g g' : GlobalSt) : Prop := ∀ i,
  ((getPopup g' i).listeners = (getPopup g i).listeners
    ∧ (getPopup g' i).listenerRegistered = (getPopup g i).listenerRegistered)
  ∨ (getPopup g' i).listeners = []

theorem shrinksAt_trans {g1 g2 g3 : GlobalSt}
    (h12 : ShrinksAt g1 g2) (h23 : ShrinksAt g2 g3) : ShrinksAt g1 g3 := by
  intro i
  rcases h23 i with ⟨e1, e2⟩ | e
  · rcases h12 i with ⟨f1, f2⟩ | f
    · exact Or.inl ⟨e1.trans f1, e2.trans f2⟩
    · exact Or.inr (e1.trans f)
  · exact Or.inr e

theorem shrinksAt_of_popups_eq {g g' : GlobalSt} (h : g'.popups = g.popups) :
    ShrinksAt g g' := by
  intro i
  have : getPopup g' i = getPopup g i := by
    show g'.popups.getD i PopupSt.phantom = _
    rw [h]
    rfl
  rw [this]
  exact Or.inl ⟨rfl, rfl⟩

theorem shrinksAt_of_set_close {g g' : GlobalSt} {t : Nat}
    (h : g'.popups = g.popups.set t (PopupSt.close (getPopup g t))) :
    ShrinksAt g g' := by
  intro i
  have hgp : getPopup g' i = if t = i ∧ t < g.popups.length then
      PopupSt.close (getPopup g t) else getPopup g i := by
    show g'.popups.getD i PopupSt.phantom = _
    rw [h, getD_set_cases]
    rfl
  rw [hgp]
  by_cases hc : t = i ∧ t < g.popups.length
  · rw [if_pos hc]
    exact Or.inr rfl
  · rw [if_neg hc]
    exact Or.inl ⟨rfl, rfl⟩

theorem shrinksAt_runHandler (g : GlobalSt) (t : HTag) :
    ShrinksAt g (runHandler g t) := by
  unfold runHandler
  cases t.kind
  · exact shrinksAt_of_popups_eq (by simp [runDomDomain, clearDomainTimerVar])
  · exact shrinksAt_of_set_close (t := (getAttempt g t.attempt).popupIdx)
      (by simp [runDomAborted, clearDomainTimerVar])
  · exact shrinksAt_of_set_close (t := (getAttempt g t.attempt).curPopupIdx)
      (by simp [runAuthAborted, clearAuthTimerVar])
  · exact shrinksAt_of_set_close (t := (getAttempt g t.attempt).curPopupIdx)
      (by simp [runAuthSuccess, clearAuthTimerVar])
  · exact shrinksAt_of_set_close (t := (getAttempt g t.attempt).curPopupIdx)
      (by simp [runAuthCancelled, clearAuthTimerVar])

theorem popupCall_none {g : GlobalSt} {i : Nat} {name : String}
    (h : getListener name (getPopup g i).listeners = none) :
    popupCall g i name = g := by
  unfold popupCall
  rw [h]

theorem shrinksAt_popupCall (g : GlobalSt) (i : Nat) (name : String) :
    ShrinksAt g (popupCall g i name) := by
  unfold popupCall
  cases h : getListener name (getPopup g i).listeners
  · exact fun i => Or.inl ⟨rfl, rfl⟩
  · exact shrinksAt_runHandler g _

theorem shrinksAt_setDomain (g : GlobalSt) (i : Nat) (dom : String) :
    ShrinksAt g (modifyPopup g i (fun p => { p with domain := dom })) := by
  intro k
  rw [getPopup_modify]
  by_cases hc : i = k ∧ i < g.popups.length
  · obtain ⟨rfl, hlt⟩ := hc
    rw [if_pos ⟨rfl, hlt⟩]
    exact Or.inl ⟨rfl, rfl⟩
  · rw [if_neg hc]
    exact Or.inl ⟨rfl, rfl⟩

theorem shrinksAt_popupOnMessage (g : GlobalSt) (i : Nat) (d : MsgData) :
    ShrinksAt g (popupOnMessage g i d) := by
  unfold popupOnMessage
  by_cases hr : (getPopup g i).listenerRegistered = true
  · rw [if_pos hr]
    cases d with
    | strMsg s =>
      dsimp only
      by_cases h1 : s = EVENT_NAME_CANCELLED
      · rw [if_pos h1]; exact shrinksAt_popupCall g i _
      · rw [if_neg h1]
        by_cases h2 : s = EVENT_NAME_SUCCESS
        · rw [if_pos h2]; exact shrinksAt_popupCall g i _
        · rw [if_neg h2]; exact fun k => Or.inl ⟨rfl, rfl⟩
    | objMsg dom ab =>
      dsimp only
      by_cases h1 : dom ≠ ""
      · rw [if_pos h1]
        exact shrinksAt_trans (shrinksAt_setDomain g i dom) (shrinksAt_popupCall _ i _)
      · rw [if_neg h1]
        by_cases h2 : ab = true
        · rw [if_pos h2]; exact shrinksAt_popupCall g i _
        · rw [if_neg h2]; exact fun k => Or.inl ⟨rfl, rfl⟩
  · rw [if_neg hr]
    exact fun k => Or.inl ⟨rfl, rfl⟩

theorem runHandler_popups_len (g : GlobalSt) (t : HTag) :
    (runHandler g t).popups.length = g.popups.length := by
  unfold runHandler
  cases t.kind <;>
    simp [runDomDomain, runDomAborted, runAuthAborted, runAuthSuccess,
      runAuthCancelled, clearDomainTimerVar, clearAuthTimerVar]

theorem popupCall_popups_len (g : GlobalSt) (i : Nat) (name : String) :
    (popupCall g i name).popups.length = g.popups.length := by
  unfold popupCall
  cases h : getListener name (getPopup g i).listeners
  · rfl
  · exact runHandler_popups_len g _

theorem popupOnMessage_popups_len (g : GlobalSt) (i : Nat) (d : MsgData) :
    (popupOnMessage g i d).popups.length = g.popups.length := by
  unfold popupOnMessage
  by_cases hr : (getPopup g i).listenerRegistered = true
  · rw [if_pos hr]
    cases d with
    | strMsg s =>
      dsimp only
      by_cases h1 : s = EVENT_NAME_CANCELLED
      · rw [if_pos h1]; exact popupCall_popups_len g i _
      · rw [if_neg h1]
        by_cases h2 : s = EVENT_NAME_SUCCESS
        · rw [if_pos h2]; exact popupCall_popups_len g i _
        · rw [if_neg h2]
    | objMsg dom ab =>
      dsimp only
      by_cases h1 : dom ≠ ""
      · rw [if_pos h1]
        rw [popupCall_popups_len, modifyPopup_len]
      · rw [if_neg h1]
        by_cases h2 : ab = true
        · rw [if_pos h2]; exact popupCall_popups_len g i _
        · rw [if_neg h2]
  · rw [if_neg hr]

theorem msgHits_mono {g g' : GlobalSt} (hs : ShrinksAt g g') (i : Nat) (d : MsgData)
    (h : msgHitsPopup g i d = false) : msgHitsPopup g' i d = false := by
  rcases hs i with ⟨e1, e2⟩ | e
  · unfold msgHitsPopup at h ⊢
    rw [e1, e2]
    exact h
  · unfold msgHitsPopup
    rw [e]
    cases d with
    | strMsg s =>
      dsimp only
      split_ifs <;> simp [getListener]
    | objMsg dom ab =>
      dsimp only
      split_ifs <;> simp [getListener]

theorem inv_setDomain {g : GlobalSt} (hInv : Inv g) (i : Nat) (dom : String) :
    Inv (modifyPopup g i (fun p => { p with domain := dom })) := by
  have hgp : ∀ k, (getPopup (modifyPopup g i (fun p => { p with domain := dom })) k).listeners
        = (getPopup g k).listeners
      ∧ (getPopup (modifyPopup g i (fun p => { p with domain := dom })) k).windowOpen
        = (getPopup g k).windowOpen := by
    intro k
    rw [getPopup_modify]
    by_cases hc : i = k ∧ i < g.popups.length
    · obtain ⟨rfl, hlt⟩ := hc
      rw [if_pos ⟨rfl, hlt⟩]
      exact ⟨rfl, rfl⟩
    · rw [if_neg hc]
      exact ⟨rfl, rfl⟩
  refine ⟨?_, ?_, ?_, ?_, ?_, ?_⟩
  · rw [modifyPopup_len]; exact hInv.len_eq
  · exact fun j hj => hInv.idx j hj
  · intro k nt hnt
    rw [(hgp k).1] at hnt
    exact hInv.tags k nt hnt
  · intro k hk
    rw [(hgp k).2]
    exact hInv.olds_closed k (by rwa [modifyPopup_len] at hk)
  · intro hf k
    rw [(hgp k).2]
    exact hInv.flag_closed hf k
  · exact fun j hj hp => hInv.late_flag j hj hp

theorem inv_popupOnMessage {g : GlobalSt} (hInv : Inv g) (i : Nat) (d : MsgData)
    (hcond : i + 1 = g.popups.length ∨ msgHitsPopup g i d = false) :
    Inv (popupOnMessage g i d) := by
  unfold popupOnMessage
  by_cases hr : (getPopup g i).listenerRegistered = true
  case neg => rw [if_neg hr]; exact hInv
  rw [if_pos hr]
  have hmiss : msgHitsPopup g i d = false →
      ∀ name, (match d with
        | .strMsg s =>
            if s = EVENT_NAME_CANCELLED then name = "cancelled"
            else if s = EVENT_NAME_SUCCESS then name = "success" else False
        | .objMsg dom ab =>
            if dom ≠ "" then name = "domain"
            else if ab then name = "aborted" else False) →
      getListener name (getPopup g i).listeners = none := by
    intro hh name hname
    unfold msgHitsPopup at hh
    rw [hr] at hh
    simp only [Bool.true_and] at hh
    cases d with
    | strMsg s =>
      dsimp only at hname hh
      by_cases h1 : s = EVENT_NAME_CANCELLED
      · rw [if_pos h1] at hname
        subst hname
        rw [if_pos h1] at hh
        cases hgl : getListener "cancelled" (getPopup g i).listeners
        · rfl
        · rw [hgl] at hh; simp at hh
      · rw [if_neg h1] at hname
        by_cases h2 : s = EVENT_NAME_SUCCESS
        · rw [if_pos h2] at hname
          subst hname
          rw [if_neg h1, if_pos h2] at hh
          cases hgl : getListener "success" (getPopup g i).listeners
          · rfl
          · rw [hgl] at hh; simp at hh
        · rw [if_neg h2] at hname
          exact absurd hname (fun hc => hc)
    | objMsg dom ab =>
      dsimp only at hname hh
      by_cases h1 : dom ≠ ""
      · rw [if_pos h1] at hname
        subst hname
        rw [if_pos h1] at hh
        cases hgl : getListener "domain" (getPopup g i).listeners
        · rfl
        · rw [hgl] at hh; simp at hh
      · rw [if_neg h1] at hname
        by_cases h2 : ab = true
        · rw [if_pos h2] at hname
          subst hname
          rw [if_neg h1, if_pos h2] at hh
          cases hgl : getListener "aborted" (getPopup g i).listeners
          · rfl
          · rw [hgl] at hh; simp at hh
        · rw [if_neg h2] at hname
          exact absurd hname (fun hc => hc)
  cases d with
  | strMsg s =>
    dsimp only
    by_cases h1 : s = EVENT_NAME_CANCELLED
    · rw [if_pos h1]
      rcases hcond with hl | hm
      · exact inv_popupCall_last hInv hl _
      · rw [popupCall_none (hmiss hm "cancelled" (by dsimp only; rw [if_pos h1]))]
        exact hInv
    · rw [if_neg h1]
      by_cases h2 : s = EVENT_NAME_SUCCESS
      · rw [if_pos h2]
        rcases hcond with hl | hm
        · exact inv_popupCall_last hInv hl _
        · rw [popupCall_none (hmiss hm "success" (by dsimp only; rw [if_neg h1, if_pos h2]))]
          exact hInv
      · rw [if_neg h2]
        exact hInv
  | objMsg dom ab =>
    dsimp only
    by_cases h1 : dom ≠ ""
    · rw [if_pos h1]
      have hInv1 := inv_setDomain hInv i dom
      have hlist : (getPopup (modifyPopup g i (fun p => { p with domain := dom })) i).listeners
          = (getPopup g i).listeners := by
        rw [getPopup_modify]
        split_ifs <;> rfl
      rcases hcond with hl | hm
      · exact inv_popupCall_last hInv1 (by rw [modifyPopup_len]; exact hl) _
      · rw [popupCall_none (by
          rw [hlist]
          exact hmiss hm "domain" (by dsimp only; rw [if_pos h1]))]
        exact hInv1
    · rw [if_neg h1]
      by_cases h2 : ab = true
      · rw [if_pos h2]
        rcases hcond with hl | hm
        · exact inv_popupCall_last hInv hl _
        · rw [popupCall_none (hmiss hm "aborted" (by dsimp only; rw [if_neg h1, if_pos h2]))]
          exact hInv
      · rw [if_neg h2]
        exact hInv

theorem inv_dispatch_aux (d : MsgData) :
    ∀ (idxs : List Nat) (g : GlobalSt), Inv g →
      (∀ i ∈ idxs, i + 1 = g.popups.length ∨ msgHitsPopup g i d = false) →
      Inv (idxs.foldl (fun h i => popupOnMessage h i d) g) := by
  intro idxs
  induction idxs with
  | nil => intro g h _; exact h
  | cons i rest ih =>
    intro g hInv hcond
    apply ih (popupOnMessage g i d)
      (inv_popupOnMessage hInv i d (hcond i (List.mem_cons_self _ _)))
    intro k hk
    rcases hcond k (List.mem_cons_of_mem _ hk) with h | h
    · left
      rw [popupOnMessage_popups_len]
      exact h
    · right
      exact msgHits_mono (shrinksAt_popupOnMessage g i d) k d h

theorem inv_dispatchMessage {g : GlobalSt} (hInv : Inv g) (d : MsgData)
    (hns : staleEvent g (.message d) = false) : Inv (dispatchMessage g d) := by
  unfold dispatchMessage
  apply inv_dispatch_aux d _ g hInv
  intro i hi
  unfold staleEvent at hns
  rw [List.any_eq_false] at hns
  have hno := hns i hi
  by_cases hl : i + 1 = g.popups.length
  · exact Or.inl hl
  · right
    cases hm : msgHitsPopup g i d
    · rfl
    · exact absurd (by rw [hm]; simp [hl]) hno

/-! ### The remaining events -/

theorem inv_userClose {g : GlobalSt} (hInv : Inv g) (i : Nat) :
    Inv (userClosesWindow g i) := by
  have hgp : ∀ k, ((getPopup (userClosesWindow g i) k).listeners
        = (getPopup g k).listeners)
      ∧ ((getPopup (userClosesWindow g i) k).windowOpen = false
        ∨ (getPopup (userClosesWindow g i) k).windowOpen = (getPopup g k).windowOpen) := by
    intro k
    unfold userClosesWindow
    rw [getPopup_modify]
    by_cases hc : i = k ∧ i < g.popups.length
    · obtain ⟨rfl, hlt⟩ := hc
      rw [if_pos ⟨rfl, hlt⟩]
      exact ⟨rfl, Or.inl rfl⟩
    · rw [if_neg hc]
      exact ⟨rfl, Or.inr rfl⟩
  have hlen : (userClosesWindow g i).popups.length = g.popups.length := by
    unfold userClosesWindow
    exact modifyPopup_len g i _
  refine ⟨?_, ?_, ?_, ?_, ?_, ?_⟩
  · rw [hlen]; exact hInv.len_eq
  · exact fun j hj => hInv.idx j hj
  · intro k nt hnt
    rw [(hgp k).1] at hnt
    exact hInv.tags k nt hnt
  · intro k hk
    rcases (hgp k).2 with h | h
    · exact h
    · rw [h]; exact hInv.olds_closed k (by rwa [hlen] at hk)
  · intro hf k
    rcases (hgp k).2 with h | h
    · exact h
    · rw [h]; exact hInv.flag_closed hf k
  · exact fun j hj hp => hInv.late_flag j hj hp

theorem inv_tick {g : GlobalSt} (hInv : Inv g) (i : Nat)
    (hns : staleEvent g (.tick i) = false) : Inv (tickPopup g i) := by
  unfold tickPopup
  by_cases hguard : ((getPopup g i).intervalActive && !(getPopup g i).windowOpen) = true
  case neg =>
    rw [if_neg hguard]
    exact hInv
  rw [if_pos hguard]
  set g1 := modifyPopup g i (fun q =>
    { q with intervalActive := false, intervalClears := q.intervalClears + 1 }) with hg1
  have hg1l : ∀ k, ((getPopup g1 k).listeners = (getPopup g k).listeners)
      ∧ ((getPopup g1 k).windowOpen = (getPopup g k).windowOpen) := by
    intro k
    rw [hg1, getPopup_modify]
    by_cases hc : i = k ∧ i < g.popups.length
    · obtain ⟨rfl, hlt⟩ := hc
      rw [if_pos ⟨rfl, hlt⟩]
      exact ⟨rfl, rfl⟩
    · rw [if_neg hc]
      exact ⟨rfl, rfl⟩
  have hlen1 : g1.popups.length = g.popups.length := modifyPopup_len g i _
  have hInv1 : Inv g1 := by
    refine ⟨?_, ?_, ?_, ?_, ?_, ?_⟩
    · rw [hlen1]; exact hInv.len_eq
    · exact fun j hj => hInv.idx j hj
    · intro k nt hnt
      rw [(hg1l k).1] at hnt
      exact hInv.tags k nt hnt
    · intro k hk
      rw [(hg1l k).2]
      exact hInv.olds_closed k (by rwa [hlen1] at hk)
    · intro hf k
      rw [(hg1l k).2]
      exact hInv.flag_closed hf k
    · exact fun j hj hp => hInv.late_flag j hj hp
  by_cases hlast : i + 1 = g.popups.length
  · have h2 := inv_popupCall_last hInv1 (by rw [hlen1]; exact hlast) "cancelled"
    apply inv_popupCall_last h2
    · rw [popupCall_popups_len, hlen1]
      exact hlast
  · have hfires : tickFires g i = false := by
      unfold staleEvent at hns
      rw [Bool.and_eq_false_iff] at hns
      rcases hns with h | h
      · simp at h
        exact absurd h hlast
      · exact h
    have hnone : getListener "cancelled" (getPopup g i).listeners = none
        ∧ getListener "aborted" (getPopup g i).listeners = none := by
      unfold tickFires at hfires
      rw [Bool.and_eq_false_iff] at hfires
      rcases hfires with h | h
      · rw [h] at hguard
        simp at hguard
      · rw [Bool.or_eq_false_iff] at h
        constructor
        · cases hgl : getListener "cancelled" (getPopup g i).listeners
          · rfl
          · rw [hgl] at h
            simp at h
        · cases hgl : getListener "aborted" (getPopup g i).listeners
          · rfl
          · rw [hgl] at h
            simp at h
    show Inv (popupCall (popupCall g1 i "cancelled") i "aborted")
    rw [show popupCall g1 i "cancelled" = g1 from
      popupCall_none (by rw [(hg1l i).1]; exact hnone.1)]
    rw [show popupCall g1 i "aborted" = g1 from
      popupCall_none (by rw [(hg1l i).1]; exact hnone.2)]
    exact hInv1

theorem inv_domainTimeout {g : GlobalSt} (hInv : Inv g) (j : Nat)
    (hns : staleEvent g (.domainTimeout j) = false) : Inv (runDomainTimeout g j) := by
  unfold runDomainTimeout
  by_cases harm : (getAttempt g j).domainTimerArmed = true
  case neg =>
    rw [if_neg harm]
    exact hInv
  rw [if_pos harm]
  have hj : j + 1 = g.attempts.length := by
    unfold staleEvent at hns
    rw [Bool.and_eq_false_iff] at hns
    rcases hns with h | h
    · simpa using h
    · rw [harm] at h
      simp at h
  have hjl : j < g.attempts.length := by omega
  have hpi : (getAttempt g j).popupIdx = j := (hInv.idx j hjl).1
  apply inv_close_shape hInv hj
  · rfl
  · simp
  · intro k
    simp only [getAttempt_closePopup, getAttempt_modify, getAttempt_flag_set,
      attempts_flag_set]
    split_ifs <;> simp_all
  · simp only [popups_closePopup, popups_modifyAttempt, popups_flag_set,
      getPopup_modifyAttempt, getPopup_flag_set]
    rw [hpi]

theorem inv_authTimeout {g : GlobalSt} (hInv : Inv g) (j : Nat)
    (hns : staleEvent g (.authTimeout j) = false) : Inv (runAuthTimeout g j) := by
  unfold runAuthTimeout
  by_cases harm : (getAttempt g j).authTimerArmed = true
  case neg =>
    rw [if_neg harm]
    exact hInv
  rw [if_pos harm]
  have hj : j + 1 = g.attempts.length := by
    unfold staleEvent at hns
    rw [Bool.and_eq_false_iff] at hns
    rcases hns with h | h
    · simpa using h
    · rw [harm] at h
      simp at h
  have hjl : j < g.attempts.length := by omega
  have hpi : (getAttempt g j).curPopupIdx = j := (hInv.idx j hjl).2
  apply inv_close_shape hInv hj
  · rfl
  · simp
  · intro k
    simp only [getAttempt_closePopup, getAttempt_modify, getAttempt_flag_set,
      attempts_flag_set]
    split_ifs <;> simp_all
  · simp only [popups_closePopup, popups_modifyAttempt, popups_flag_set,
      getPopup_modifyAttempt, getPopup_flag_set]
    rw [hpi]

/-- Modifying only the last attempt, preserving its popup indices, keeps the
invariant as long as a move into polling/exchanging happens only with the flag
already cleared. -/
theorem inv_modifyAttempt_last {g : GlobalSt} (hInv : Inv g) {j : Nat}
    (hj : j + 1 = g.attempts.length) (f : AttemptSt → AttemptSt)
    (hf : (f (getAttempt g j)).popupIdx = (getAttempt g j).popupIdx
      ∧ (f (getAttempt g j)).curPopupIdx = (getAttempt g j).curPopupIdx)
    (hphase : ((f (getAttempt g j)).phase = .polling
        ∨ (f (getAttempt g j)).phase = .exchanging) →
      g.popupStateOpen = false) :
    Inv (modifyAttempt g j f) := by
  refine ⟨?_, ?_, ?_, ?_, ?_, ?_⟩
  · rw [modifyAttempt_len]
    exact hInv.len_eq
  · intro k hk
    rw [modifyAttempt_len] at hk
    rw [getAttempt_modify]
    by_cases hc : j = k ∧ j < g.attempts.length
    · obtain ⟨rfl, _⟩ := hc
      rw [if_pos ⟨rfl, by omega⟩, hf.1, hf.2]
      exact hInv.idx j hk
    · rw [if_neg hc]
      exact hInv.idx k hk
  · intro i nt hnt
    exact hInv.tags i nt (by rw [getPopup_modifyAttempt] at hnt; exact hnt)
  · intro i hi
    rw [getPopup_modifyAttempt]
    exact hInv.olds_closed i (by rwa [popups_modifyAttempt] at hi)
  · intro hfl i
    rw [getPopup_modifyAttempt]
    exact hInv.flag_closed (by rwa [flag_modifyAttempt] at hfl) i
  · intro k hk hph
    rw [modifyAttempt_len] at hk
    have hkj : k = j := by omega
    subst hkj
    rw [getAttempt_modify, if_pos ⟨rfl, by omega⟩] at hph
    rw [flag_modifyAttempt]
    exact hphase hph

/-- Clearing the flag (and possibly the module token) is invariant-preserving
once every popup window is closed. -/
theorem inv_flagFalse_of_closed {g : GlobalSt} (hInv : Inv g)
    (hclosed : ∀ i, (getPopup g i).windowOpen = false) (mt : Option TokenSt) :
    Inv { g with popupStateOpen := false, moduleToken := mt } := by
  refine ⟨hInv.len_eq, hInv.idx, hInv.tags, hInv.olds_closed, ?_, ?_⟩
  · intro _ i
    exact hclosed i
  · intro _ _ _
    rfl

theorem inv_calls_set {g : GlobalSt} (hInv : Inv g) (c : List HttpReq) :
    Inv { g with calls := c } :=
  ⟨hInv.len_eq, hInv.idx, hInv.tags, hInv.olds_closed, hInv.flag_closed, hInv.late_flag⟩

theorem inv_authTimerVar_set {g : GlobalSt} (hInv : Inv g) (v : Nat) :
    Inv { g with authTimerVar := v } :=
  ⟨hInv.len_eq, hInv.idx, hInv.tags, hInv.olds_closed, hInv.flag_closed, hInv.late_flag⟩

theorem inv_failAttempt {g : GlobalSt} (hInv : Inv g) {j : Nat}
    (hj : j + 1 = g.attempts.length) (code : String) : Inv (failAttempt g j code) := by
  unfold failAttempt
  split_ifs
  · exact inv_modifyAttempt_last hInv hj _ ⟨rfl, rfl⟩
      (by intro h; rcases h with h | h <;> simp at h)
  · exact inv_modifyAttempt_last hInv hj _ ⟨rfl, rfl⟩
      (by intro h; rcases h with h | h <;> simp at h)
  · exact inv_modifyAttempt_last hInv hj _ ⟨rfl, rfl⟩
      (by intro h; rcases h with h | h <;> simp at h)

theorem inv_registerListener_tag {g : GlobalSt} (hInv : Inv g) (i : Nat)
    (name : String) (t : HTag) (ht : t.attempt = i) :
    Inv (registerListener g i name t) := by
  refine ⟨?_, ?_, ?_, ?_, ?_, ?_⟩
  · unfold registerListener
    rw [modifyPopup_len]
    exact hInv.len_eq
  · exact fun j hj => hInv.idx j hj
  · intro k nt hnt
    unfold registerListener at hnt
    rw [getPopup_modify] at hnt
    by_cases hc : i = k ∧ i < g.popups.length
    · obtain ⟨rfl, hlt⟩ := hc
      rw [if_pos ⟨rfl, hlt⟩] at hnt
      rcases setListener_mem hnt with h | h
      · rw [h, ht]
      · exact hInv.tags i nt h
    · rw [if_neg hc] at hnt
      exact hInv.tags k nt hnt
  · intro k hk
    unfold registerListener at hk ⊢
    rw [getPopup_modify]
    rw [modifyPopup_len] at hk
    by_cases hc : i = k ∧ i < g.popups.length
    · obtain ⟨rfl, hlt⟩ := hc
      rw [if_pos ⟨rfl, hlt⟩]
      exact hInv.olds_closed i hk
    · rw [if_neg hc]
      exact hInv.olds_closed k hk
  · intro hf k
    unfold registerListener at hf ⊢
    rw [getPopup_modify]
    by_cases hc : i = k ∧ i < g.popups.length
    · obtain ⟨rfl, hlt⟩ := hc
      rw [if_pos ⟨rfl, hlt⟩]
      exact hInv.flag_closed hf i
    · rw [if_neg hc]
      exact hInv.flag_closed hf k
  · exact fun j hj hp => hInv.late_flag j hj hp

theorem inv_sessionInit {g : GlobalSt} (hInv : Inv g) (j : Nat) (r : Option String)
    (hns : staleEvent g (.sessionInit j r) = false) : Inv (sessionInitResp g j r) := by
  unfold sessionInitResp
  dsimp only
  by_cases hph : (getAttempt g j).phase = .computingUrl
  case neg =>
    rw [if_neg hph]
    exact hInv
  rw [if_pos hph]
  have hj : j + 1 = g.attempts.length := by
    unfold staleEvent at hns
    rw [Bool.and_eq_false_iff] at hns
    rcases hns with h | h
    · simpa using h
    · rw [hph] at h
      simp at h
  have hjl : j < g.attempts.length := by omega
  have hcur : (getAttempt g j).curPopupIdx = j := (hInv.idx j hjl).2
  cases r with
  | none =>
    exact inv_failAttempt hInv hj _
  | some key =>
    dsimp only
    by_cases hwin : (getPopup g (getAttempt g j).curPopupIdx).windowOpen = true
    · rw [if_pos hwin]
      have hInv1 : Inv (modifyAttempt g j (fun b =>
          { b with sessionId := key, authTimerArmed := true, phase := .authWait })) :=
        inv_modifyAttempt_last hInv hj _ ⟨rfl, rfl⟩
          (by intro h; rcases h with h | h <;> simp at h)
      have hInv2 : Inv { modifyAttempt g j (fun b =>
          { b with sessionId := key, authTimerArmed := true, phase := .authWait })
            with authTimerVar := j } := inv_authTimerVar_set hInv1 j
      have hplen2 : ({ modifyAttempt g j (fun b =>
          { b with sessionId := key, authTimerArmed := true, phase := .authWait })
            with authTimerVar := j } : GlobalSt).popups.length = g.popups.length := by
        simp
      rw [hcur]
      have hjj : j < g.popups.length := by
        rw [← hInv.len_eq]
        omega
      apply inv_registerListener_tag _ j _ _ rfl
      apply inv_registerListener_tag _ j _ _ rfl
      apply inv_registerListener_tag hInv2 j _ _ rfl
    · rw [if_neg hwin]
      have hclosed : ∀ i, (getPopup g i).windowOpen = false := by
        intro i
        rcases Nat.lt_or_ge i g.popups.length with hlt | hge
        · rcases Nat.lt_or_ge (i + 1) g.popups.length with hlt2 | hge2
          · exact hInv.olds_closed i hlt2
          · have hij : i = j := by
              rw [← hInv.len_eq] at hlt hge2
              omega
            subst hij
            rw [hcur] at hwin
            simpa using hwin
        · rw [getPopup_oob g i hge]
          rfl
      have hInv1 : Inv { g with popupStateOpen := false } :=
        inv_flagFalse_of_closed hInv hclosed g.moduleToken
      exact inv_failAttempt hInv1 (g := { g with popupStateOpen := false }) hj _

theorem inv_pollDone {g : GlobalSt} (hInv : Inv g) (j : Nat) (r : Option String)
    (hns : staleEvent g (.pollDone j r) = false) : Inv (pollResp g j r) := by
  unfold pollResp
  dsimp only
  by_cases hph : (getAttempt g j).phase = .polling
  case neg =>
    rw [if_neg hph]
    exact hInv
  rw [if_pos hph]
  have hj : j + 1 = g.attempts.length := by
    unfold staleEvent at hns
    rw [Bool.and_eq_false_iff] at hns
    rcases hns with h | h
    · simpa using h
    · rw [hph] at h
      simp at h
  have hflag : g.popupStateOpen = false := hInv.late_flag j hj (Or.inl hph)
  have hclosed : ∀ i, (getPopup g i).windowOpen = false := hInv.flag_closed hflag
  cases r with
  | none =>
    have hInv1 : Inv { g with popupStateOpen := false } :=
      inv_flagFalse_of_closed hInv hclosed g.moduleToken
    exact inv_failAttempt hInv1 (g := { g with popupStateOpen := false }) hj _
  | some code =>
    dsimp only
    apply inv_calls_set
    exact inv_modifyAttempt_last hInv hj _ ⟨rfl, rfl⟩ (fun _ => hflag)

theorem inv_exchangeDone {g : GlobalSt} (hInv : Inv g) (j : Nat)
    (r : Option (String × Nat × String))
    (hns : staleEvent g (.exchangeDone j r) = false) : Inv (exchangeResp g j r) := by
  unfold exchangeResp
  dsimp only
  by_cases hph : (getAttempt g j).phase = .exchanging
  case neg =>
    rw [if_neg hph]
    exact hInv
  rw [if_pos hph]
  have hj : j + 1 = g.attempts.length := by
    unfold staleEvent at hns
    rw [Bool.and_eq_false_iff] at hns
    rcases hns with h | h
    · simpa using h
    · rw [hph] at h
      simp at h
  have hflag : g.popupStateOpen = false := hInv.late_flag j hj (Or.inr hph)
  have hclosed : ∀ i, (getPopup g i).windowOpen = false := hInv.flag_closed hflag
  cases r with
  | none =>
    have hInv1 : Inv { g with popupStateOpen := false } :=
      inv_flagFalse_of_closed hInv hclosed g.moduleToken
    exact inv_failAttempt hInv1 (g := { g with popupStateOpen := false }) hj _
  | some resp =>
    obtain ⟨accessTok, expIn, refreshTok⟩ := resp
    dsimp only
    have hInv1 := inv_flagFalse_of_closed hInv hclosed (some
      (⟨⟨"Bearer", expIn, accessTok, refreshTok,
        normalizeDomain (getAttempt g j).cfg.domain⟩,
        (getAttempt g j).cfg.clientId, (getAttempt g j).cfg.scopes⟩ : TokenSt))
    exact inv_modifyAttempt_last hInv1 hj _ ⟨rfl, rfl⟩
      (by intro h; rcases h with h | h <;> simp at h)

theorem inv_closePopup_any {g : GlobalSt} (hInv : Inv g) (t : Nat) :
    Inv (closePopup g t) := by
  have hgp : ∀ k, getPopup (closePopup g t) k
      = if t = k ∧ t < g.popups.length then PopupSt.close (getPopup g t)
        else getPopup g k := by
    intro k
    show (closePopup g t).popups.getD k PopupSt.phantom = _
    rw [popups_closePopup, getD_set_cases]
    rfl
  refine ⟨?_, ?_, ?_, ?_, ?_, ?_⟩
  · rw [attempts_closePopup, popups_closePopup, List.length_set]
    exact hInv.len_eq
  · exact fun j hj => hInv.idx j hj
  · intro i nt hnt
    rw [hgp i] at hnt
    by_cases hc : t = i ∧ t < g.popups.length
    · rw [if_pos hc] at hnt
      simp [PopupSt.close] at hnt
    · rw [if_neg hc] at hnt
      exact hInv.tags i nt hnt
  · intro i hi
    rw [hgp i]
    by_cases hc : t = i ∧ t < g.popups.length
    · rw [if_pos hc]; rfl
    · rw [if_neg hc]
      exact hInv.olds_closed i
        (by rwa [popups_closePopup, List.length_set] at hi)
  · intro hf i
    rw [hgp i]
    by_cases hc : t = i ∧ t < g.popups.length
    · rw [if_pos hc]; rfl
    · rw [if_neg hc]
      exact hInv.flag_closed hf i
  · exact fun j hj hp => hInv.late_flag j hj hp

/-- The body of authorize()'s entry preserves the invariant from any state in
which every popup window is already closed. -/
theorem inv_enterBody {g : GlobalSt} (hInv : Inv g)
    (hclosed : ∀ i, (getPopup g i).windowOpen = false) (cfg : ConfigSt) :
    Inv (enterBody g cfg) := by
  have hcore : ∀ (att : AttemptSt), att.popupIdx = g.popups.length →
      att.curPopupIdx = g.popups.length →
      (att.phase = Phase.domainWait ∨ att.phase = Phase.computingUrl) →
      ∀ (dv : Nat),
      Inv (⟨true, g.popups ++ [PopupSt.fresh], g.attempts ++ [att], g.calls,
        g.moduleToken, dv, g.authTimerVar⟩ : GlobalSt) := by
    intro att hp hc hph dv
    have hgp : ∀ i, getPopup (⟨true, g.popups ++ [PopupSt.fresh],
        g.attempts ++ [att], g.calls, g.moduleToken, dv, g.authTimerVar⟩ : GlobalSt) i
        = if i < g.popups.length then getPopup g i
          else if i = g.popups.length then PopupSt.fresh else PopupSt.phantom := by
      intro i
      show (g.popups ++ [PopupSt.fresh]).getD i PopupSt.phantom = _
      rw [getD_append_cases]
      rfl
    have hga : ∀ k, getAttempt (⟨true, g.popups ++ [PopupSt.fresh],
        g.attempts ++ [att], g.calls, g.moduleToken, dv, g.authTimerVar⟩ : GlobalSt) k
        = if k < g.attempts.length then getAttempt g k
          else if k = g.attempts.length then att else AttemptSt.phantom := by
      intro k
      show (g.attempts ++ [att]).getD k AttemptSt.phantom = _
      rw [getD_append_cases]
      rfl
    refine ⟨?_, ?_, ?_, ?_, ?_, ?_⟩
    · show (g.attempts ++ [att]).length = (g.popups ++ [PopupSt.fresh]).length
      simp [hInv.len_eq]
    · intro k hk
      rw [hga k]
      have hk2 : k < g.attempts.length + 1 := by
        simpa using hk
      by_cases hlt : k < g.attempts.length
      · rw [if_pos hlt]
        exact hInv.idx k hlt
      · have hke : k = g.attempts.length := by omega
        rw [if_neg hlt, if_pos hke, hp, hc, hke, hInv.len_eq]
        exact ⟨rfl, rfl⟩
    · intro i nt hnt
      rw [hgp i] at hnt
      by_cases hlt : i < g.popups.length
      · rw [if_pos hlt] at hnt
        exact hInv.tags i nt hnt
      · rw [if_neg hlt] at hnt
        by_cases hie : i = g.popups.length
        · rw [if_pos hie] at hnt
          simp [PopupSt.fresh] at hnt
        · rw [if_neg hie] at hnt
          simp [PopupSt.phantom] at hnt
    · intro i hi
      rw [hgp i]
      have hi2 : i < g.popups.length := by
        simp at hi
        omega
      rw [if_pos hi2]
      exact hclosed i
    · intro hf _
      simp at hf
    · intro k hk hph2
      have hke : k = g.attempts.length := by
        simp at hk
        omega
      rw [hga k, if_neg (by omega), if_pos hke] at hph2
      rcases hph with h | h <;> rw [h] at hph2 <;>
        rcases hph2 with h2 | h2 <;> simp at h2
  unfold enterBody
  dsimp only
  by_cases hdom : cfg.domain = ""
  · rw [if_pos hdom]
    apply inv_registerListener_tag _ g.popups.length _ _ (by rw [hInv.len_eq])
    apply inv_registerListener_tag _ g.popups.length _ _ (by rw [hInv.len_eq])
    exact hcore
      ⟨cfg, g.popups.length, g.popups.length, true, .domainWait, true, false, "", .pending⟩
      rfl rfl (Or.inl rfl) g.attempts.length
  · rw [if_neg hdom]
    exact inv_calls_set (hcore
      ⟨cfg, g.popups.length, g.popups.length, false, .computingUrl, false, false, "",
        .pending⟩
      rfl rfl (Or.inr rfl) g.domainTimerVar) _

theorem inv_enterAuthorize {g : GlobalSt} (hInv : Inv g) (cfg : ConfigSt) :
    Inv (enterAuthorize g cfg) := by
  unfold enterAuthorize
  by_cases hf : g.popupStateOpen = true
  · rw [if_pos hf]
    apply inv_enterBody (inv_closePopup_any hInv (g.popups.length - 1))
    intro i
    have hgp : getPopup (closePopup g (g.popups.length - 1)) i
        = if g.popups.length - 1 = i ∧ g.popups.length - 1 < g.popups.length then
            PopupSt.close (getPopup g (g.popups.length - 1))
          else getPopup g i := by
      show (closePopup g (g.popups.length - 1)).popups.getD i PopupSt.phantom = _
      rw [popups_closePopup, getD_set_cases]
      rfl
    rw [hgp]
    by_cases hc : g.popups.length - 1 = i ∧ g.popups.length - 1 < g.popups.length
    · rw [if_pos hc]; rfl
    · rw [if_neg hc]
      rcases Nat.lt_or_ge i g.popups.length with hlt | hge
      · rcases Nat.lt_or_ge (i + 1) g.popups.length with hlt2 | hge2
        · exact hInv.olds_closed i hlt2
        · exact absurd ⟨by omega, by omega⟩ hc
      · rw [getPopup_oob g i hge]
        rfl
  · rw [if_neg hf]
    apply inv_enterBody hInv
    exact hInv.flag_closed (by simpa using hf)

theorem inv_step {g : GlobalSt} (hInv : Inv g) (e : Event)
    (hns : staleEvent g e = false) : Inv (step g e) := by
  cases e with
  | enter cfg => exact inv_enterAuthorize hInv cfg
  | message d => exact inv_dispatchMessage hInv d hns
  | tick i => exact inv_tick hInv i hns
  | userClose i => exact inv_userClose hInv i
  | domainTimeout j => exact inv_domainTimeout hInv j hns
  | authTimeout j => exact inv_authTimeout hInv j hns
  | sessionInit j r => exact inv_sessionInit hInv j r hns
  | pollDone j r => exact inv_pollDone hInv j r hns
  | exchangeDone j r => exact inv_exchangeDone hInv j r hns

theorem inv_run_aux :
    ∀ (events : List Event) (g : GlobalSt), Inv g → noStaleB g events = true →
      Inv (events.foldl step g) := by
  intro events
  induction events with
  | nil => intro g h _; exact h
  | cons e rest ih =>
    intro g hInv hns
    unfold noStaleB at hns
    rw [Bool.and_eq_true] at hns
    obtain ⟨h1, h2⟩ := hns
    rw [Bool.not_eq_true'] at h1
    exact ih (step g e) (inv_step hInv e h1) h2

theorem windowOpen_registerListener (X : GlobalSt) (i0 : Nat) (n : String)
    (t : HTag) (k : Nat) :
    (getPopup (registerListener X i0 n t) k).windowOpen = (getPopup X k).windowOpen := by
  unfold registerListener
  rw [getPopup_modify]
  by_cases hc : i0 = k ∧ i0 < X.popups.length
  · obtain ⟨rfl, hlt⟩ := hc
    rw [if_pos ⟨rfl, hlt⟩]
  · rw [if_neg hc]

/-- Which windows are open after authorize()'s entry body: the old ones are
untouched and the newly created popup is open. -/
theorem enterBody_windowOpen (g : GlobalSt) (cfg : ConfigSt) (i : Nat) :
    (getPopup (enterBody g cfg) i).windowOpen
      = if i < g.popups.length then (getPopup g i).windowOpen
        else if i = g.popups.length then true else false := by
  have hbase : ∀ (att : List AttemptSt) (c : List HttpReq) (dv : Nat)
      (mt : Option TokenSt) (av : Nat),
      ((getPopup (⟨true, g.popups ++ [PopupSt.fresh], att, c, mt, dv, av⟩ : GlobalSt)
        i).windowOpen)
      = if i < g.popups.length then (getPopup g i).windowOpen
        else if i = g.popups.length then true else false := by
    intro att c dv mt av
    show ((g.popups ++ [PopupSt.fresh]).getD i PopupSt.phantom).windowOpen = _
    rw [getD_append_cases]
    by_cases h1 : i < g.popups.length
    · rw [if_pos h1, if_pos h1]
      rfl
    · rw [if_neg h1, if_neg h1]
      by_cases h2 : i = g.popups.length
      · rw [if_pos h2, if_pos h2]
        rfl
      · rw [if_neg h2, if_neg h2]
        rfl
  unfold enterBody
  dsimp only
  by_cases hdom : cfg.domain = ""
  · rw [if_pos hdom]
    rw [windowOpen_registerListener, windowOpen_registerListener]
    exact hbase _ _ _ _ _
  · rw [if_neg hdom]
    exact hbase _ _ _ _ _

/-- C3 — amended. (1) Whenever a new authorize() call starts while
POPUP_STATE.open is set, it force-closes the previous (module-level) popup
before its own popup opens: in the resulting state the old popup's window is
closed and the new one's is open. (2) On every run in which no timer callback,
registered listener, or HTTP continuation of a superseded attempt fires, at
most one popup window is open at every point. (As claimed — unconditionally —
the invariant is false: `C3_counterexample_two_popups` exhibits a run in which
a superseded attempt's 5-minute timer, which the force-close does not cancel,
clears the flag while the newer popup is open, after which a third call opens
a second popup alongside it.) -/
theorem C3_amended_single_flight :
    (∀ (g : GlobalSt) (cfg : ConfigSt), g.popupStateOpen = true → g.popups ≠ [] →
      (getPopup (enterAuthorize g cfg) (g.popups.length - 1)).windowOpen = false
      ∧ (getPopup (enterAuthorize g cfg) g.popups.length).windowOpen = true)
    ∧ (∀ events : List Event, noStaleB GlobalSt.init events = true →
      countOpen (run events) ≤ 1) := by
  constructor
  · intro g cfg hf hne
    have hlen : 0 < g.popups.length := List.length_pos.mpr hne
    unfold enterAuthorize
    rw [if_pos hf]
    have hlen0 : (closePopup g (g.popups.length - 1)).popups.length
        = g.popups.length := by
      rw [popups_closePopup, List.length_set]
    have hold : (getPopup (closePopup g (g.popups.length - 1))
        (g.popups.length - 1)).windowOpen = false := by
      show ((closePopup g (g.popups.length - 1)).popups.getD _
        PopupSt.phantom).windowOpen = false
      rw [popups_closePopup, getD_set_cases, if_pos ⟨rfl, by omega⟩]
      rfl
    constructor
    · rw [enterBody_windowOpen, hlen0, if_pos (by omega)]
      exact hold
    · rw [enterBody_windowOpen, hlen0, if_neg (by omega), if_pos rfl]
  · intro events hns
    have hInv : Inv (run events) := inv_run_aux events GlobalSt.init inv_init hns
    exact countOpen_le_one hInv

/-- Witness for `C3_amended_single_flight`: a concrete second call entered while
the flag is set, and a concrete stale-free run. -/
theorem C3_witness :
    ((run [.enter cfg4]).popupStateOpen = true
      ∧ (run [.enter cfg4]).popups ≠ []
      ∧ (getPopup (enterAuthorize (run [.enter cfg4]) cfg4)
          ((run [.enter cfg4]).popups.length - 1)).windowOpen = false
      ∧ (getPopup (enterAuthorize (run [.enter cfg4]) cfg4)
          (run [.enter cfg4]).popups.length).windowOpen = true)
    ∧ (noStaleB GlobalSt.init
        [.enter cfg4, .sessionInit 0 (some "s1"), .message (.strMsg EVENT_NAME_SUCCESS)]
        = true
      ∧ countOpen (run
        [.enter cfg4, .sessionInit 0 (some "s1"), .message (.strMsg EVENT_NAME_SUCCESS)])
        ≤ 1) := by
  refine ⟨⟨by decide, by decide, ?_, ?_⟩, ⟨by decide, ?_⟩⟩
  · exact (C3_amended_single_flight.1 (run [.enter cfg4]) cfg4 (by decide) (by decide)).1
  · exact (C3_amended_single_flight.1 (run [.enter cfg4]) cfg4 (by decide) (by decide)).2
  · exact C3_amended_single_flight.2 _ (by decide)

end Frontify
